import Mathlib

set_option maxRecDepth 2048

/-!
Verification development for the `parlador` formant text-to-speech engine
(Rust).  The definitions below are a shallow embedding of the source files
`src/phoneme.rs`, `src/g2p.rs`, `src/prosody.rs`, `src/formant.rs`,
`src/voice.rs`, `src/ssml.rs`, `src/synthesizer.rs` and `src/streaming.rs`.

Modelling conventions:
* Rust `f32` values are modelled as exact rationals (`ℚ`).  Additions,
  multiplications and divisions are exact; the transcendental operations
  `exp`, `cos` and `powf` that `f32` provides are kept abstract as fields
  of an `FOps` parameter, since every claim under study is either
  independent of their values or only compares two runs that apply the
  same operations.  `as usize` / `as u32` casts of non-negative floats are
  modelled by `ratToNat` (truncation toward zero); `as i16` by `ratTrunc`.
* Rust `char::is_alphabetic` / `to_lowercase` operate on full Unicode; the
  engine only distinguishes ASCII letters and the Spanish accented letters,
  so the model covers exactly that alphabet (all other characters behave as
  non-alphabetic, as they do in the engine's input language).
* Rust `HashMap`s whose construction order is fixed are modelled as
  association lists with the same keys; `get` is `lookup`.
-/

namespace Parlador

/-- Truncation of a rational toward zero, as Rust `as
usize`/`as u32` on a non-negative finite float (`src/formant.rs`,
`src/synthesizer.rs`). -/
def ratToNat (q : ℚ) : ℕ := (⌊q⌋).toNat

/-- Truncation of a rational toward zero (Rust `as i16` after clamping,
`src/formant.rs:407`). -/
def ratTrunc (q : ℚ) : ℤ := q.num / (q.den : ℤ)

/-- The apostrophe character (kept by `G2PConverter::normalize`). -/
def apostrophe : Char := Char.ofNat 39

/-- Model of Rust `char::is_alphabetic` restricted to the engine's working
alphabet: ASCII letters plus the Spanish accented letters and `ñ`/`ü`. -/
def rustIsAlphabetic (c : Char) : Bool :=
  (('a' ≤ c && c ≤ 'z') || ('A' ≤ c && c ≤ 'Z')
    || c = 'á' || c = 'é' || c = 'í' || c = 'ó' || c = 'ú' || c = 'ü' || c = 'ñ'
    || c = 'Á' || c = 'É' || c = 'Í' || c = 'Ó' || c = 'Ú' || c = 'Ü' || c = 'Ñ')

/-- Model of Rust `char::to_lowercase` on the engine's working alphabet. -/
def rustToLower (c : Char) : Char :=
  if 'A' ≤ c && c ≤ 'Z' then Char.ofNat (c.toNat + 32)
  else if c = 'Á' then 'á' else if c = 'É' then 'é'
  else if c = 'Í' then 'í' else if c = 'Ó' then 'ó'
  else if c = 'Ú' then 'ú' else if c = 'Ü' then 'ü'
  else if c = 'Ñ' then 'ñ' else c

/-- Whitespace predicate used by Rust `split_whitespace` / `trim` for the
characters this engine processes. -/
def rustIsWs (c : Char) : Bool :=
  c = ' ' || c = '\t' || c = '\n' || c = '\r'

/-- Split a character list on whitespace, dropping empty fragments
(Rust `str::split_whitespace`). -/
def splitWsList : List Char → List Char → List String
  | [], [] => []
  | [], cur => [String.mk cur.reverse]
  | c :: rest, cur =>
    if rustIsWs c then
      (if cur = [] then splitWsList rest []
       else String.mk cur.reverse :: splitWsList rest [])
    else splitWsList rest (c :: cur)

/-- Rust `str::split_whitespace` collected to a list. -/
def splitWs (s : String) : List String := splitWsList s.data []

/-- Rust `str::trim` (drop leading and trailing whitespace). -/
def rustTrim (s : String) : String :=
  String.mk (((s.data.dropWhile rustIsWs).reverse.dropWhile rustIsWs).reverse)

/-- Byte length of a string under UTF-8 (Rust `str::len`). -/
def byteLen (s : String) : ℕ := s.utf8ByteSize

/-- Rust `str::starts_with`. -/
def strStartsWith (s pre : String) : Bool := pre.data.isPrefixOf s.data

/-- Rust `str::ends_with`. -/
def strEndsWith (s suf : String) : Bool :=
  suf.data.reverse.isPrefixOf s.data.reverse

/-- Leftmost non-overlapping replacement on character lists (Rust
`str::replace`); the counter skips the remainder of a match. -/
def listReplaceGo (pat repl : List Char) : List Char → ℕ → List Char
  | [], _ => []
  | _ :: rest, skip + 1 => listReplaceGo pat repl rest skip
  | c :: rest, 0 =>
    if pat ≠ [] && pat.isPrefixOf (c :: rest) then
      repl ++ listReplaceGo pat repl rest (pat.length - 1)
    else c :: listReplaceGo pat repl rest 0

/-- Rust `str::replace`. -/
def strReplace (s pat repl : String) : String :=
  String.mk (listReplaceGo pat.data repl.data s.data 0)

/-! Phoneme data model, from `src/phoneme.rs`. -/

/-- Formant frequency values (`FormantValues`, `src/phoneme.rs:28`). -/
structure FormantValues where
  f1 : ℚ
  f2 : ℚ
  f3 : ℚ
  b1 : ℚ
  b2 : ℚ
  b3 : ℚ
deriving DecidableEq, Repr

/-- `FormantValues::new` — default bandwidths 60/90/150 Hz. -/
def FormantValues.new (f1 f2 f3 : ℚ) : FormantValues :=
  ⟨f1, f2, f3, 60, 90, 150⟩

/-- Phoneme categories (`PhonemeCategory`, `src/phoneme.rs:64`). -/
inductive PhonemeCategory where
  | Vowel | Diphthong | Plosive | Fricative | Affricate
  | Nasal | Lateral | Rhotic | Approximant | Silence
deriving DecidableEq, Repr

/-- A phoneme with acoustic properties (`Phoneme`, `src/phoneme.rs:11`). -/
structure Phoneme where
  symbol : String
  ipa : String
  category : PhonemeCategory
  duration_ms : ℕ
  formants : Option FormantValues
  voiced : Bool
deriving DecidableEq, Repr

/-- A phoneme inventory (`PhonemeInventory`, `src/phoneme.rs:89`): the map
from symbol to phoneme is an association list with the source's insertion
keys. -/
structure PhonemeInventory where
  phonemes : List (String × Phoneme)
  language : String
deriving DecidableEq, Repr

/-- `PhonemeInventory::get`. -/
def PhonemeInventory.get (inv : PhonemeInventory) (symbol : String) :
    Option Phoneme :=
  inv.phonemes.lookup symbol

open PhonemeCategory in
/-- `PhonemeInventory::english` (`src/phoneme.rs:98`). -/
def PhonemeInventory.english : PhonemeInventory where
  language := "en"
  phonemes :=
    [ ("i", ⟨"i", "iː", Vowel, 120, some (FormantValues.new 270 2290 3010), true⟩)
    , ("I", ⟨"I", "ɪ", Vowel, 100, some (FormantValues.new 390 1990 2550), true⟩)
    , ("e", ⟨"e", "eɪ", Diphthong, 140, some (FormantValues.new 530 1840 2480), true⟩)
    , ("E", ⟨"E", "ɛ", Vowel, 100, some (FormantValues.new 610 1900 2530), true⟩)
    , ("&", ⟨"&", "æ", Vowel, 120, some (FormantValues.new 660 1720 2410), true⟩)
    , ("A", ⟨"A", "ɑː", Vowel, 130, some (FormantValues.new 730 1090 2440), true⟩)
    , ("O", ⟨"O", "ɔː", Vowel, 120, some (FormantValues.new 570 840 2410), true⟩)
    , ("o", ⟨"o", "oʊ", Diphthong, 140, some (FormantValues.new 450 1030 2380), true⟩)
    , ("U", ⟨"U", "ʊ", Vowel, 100, some (FormantValues.new 440 1020 2240), true⟩)
    , ("u", ⟨"u", "uː", Vowel, 120, some (FormantValues.new 300 870 2240), true⟩)
    , ("@", ⟨"@", "ə", Vowel, 80, some (FormantValues.new 500 1500 2500), true⟩)
    , ("3", ⟨"3", "ɜː", Vowel, 120, some (FormantValues.new 580 1380 2530), true⟩)
    , ("aI", ⟨"aI", "aɪ", Diphthong, 180, some (FormantValues.new 700 1200 2600), true⟩)
    , ("aU", ⟨"aU", "aʊ", Diphthong, 180, some (FormantValues.new 700 1000 2400), true⟩)
    , ("OI", ⟨"OI", "ɔɪ", Diphthong, 180, some (FormantValues.new 570 1000 2500), true⟩)
    , ("p", ⟨"p", "p", Plosive, 60, none, false⟩)
    , ("b", ⟨"b", "b", Plosive, 60, none, true⟩)
    , ("t", ⟨"t", "t", Plosive, 60, none, false⟩)
    , ("d", ⟨"d", "d", Plosive, 60, none, true⟩)
    , ("k", ⟨"k", "k", Plosive, 60, none, false⟩)
    , ("g", ⟨"g", "g", Plosive, 60, none, true⟩)
    , ("f", ⟨"f", "f", Fricative, 80, none, false⟩)
    , ("v", ⟨"v", "v", Fricative, 80, none, true⟩)
    , ("T", ⟨"T", "θ", Fricative, 80, none, false⟩)
    , ("D", ⟨"D", "ð", Fricative, 80, none, true⟩)
    , ("s", ⟨"s", "s", Fricative, 90, none, false⟩)
    , ("z", ⟨"z", "z", Fricative, 90, none, true⟩)
    , ("S", ⟨"S", "ʃ", Fricative, 100, none, false⟩)
    , ("Z", ⟨"Z", "ʒ", Fricative, 100, none, true⟩)
    , ("h", ⟨"h", "h", Fricative, 60, none, false⟩)
    , ("tS", ⟨"tS", "tʃ", Affricate, 110, none, false⟩)
    , ("dZ", ⟨"dZ", "dʒ", Affricate, 110, none, true⟩)
    , ("m", ⟨"m", "m", Nasal, 80, some (FormantValues.new 300 1000 2500), true⟩)
    , ("n", ⟨"n", "n", Nasal, 80, some (FormantValues.new 300 1500 2500), true⟩)
    , ("N", ⟨"N", "ŋ", Nasal, 80, some (FormantValues.new 300 2000 2500), true⟩)
    , ("l", ⟨"l", "l", Lateral, 70, some (FormantValues.new 350 1100 2700), true⟩)
    , ("r", ⟨"r", "ɹ", Rhotic, 70, some (FormantValues.new 350 1300 1700), true⟩)
    , ("w", ⟨"w", "w", Approximant, 60, some (FormantValues.new 300 700 2400), true⟩)
    , ("j", ⟨"j", "j", Approximant, 60, some (FormantValues.new 280 2300 3000), true⟩)
    , ("_", ⟨"_", "", Silence, 100, none, false⟩)
    ]

open PhonemeCategory in
/-- `PhonemeInventory::spanish` (`src/phoneme.rs:445`). -/
def PhonemeInventory.spanish : PhonemeInventory where
  language := "es"
  phonemes :=
    [ ("a", ⟨"a", "a", Vowel, 100, some (FormantValues.new 750 1200 2600), true⟩)
    , ("e", ⟨"e", "e", Vowel, 100, some (FormantValues.new 450 1900 2500), true⟩)
    , ("i", ⟨"i", "i", Vowel, 100, some (FormantValues.new 270 2300 3000), true⟩)
    , ("o", ⟨"o", "o", Vowel, 100, some (FormantValues.new 500 900 2500), true⟩)
    , ("u", ⟨"u", "u", Vowel, 100, some (FormantValues.new 300 800 2300), true⟩)
    , ("p", ⟨"p", "p", Plosive, 60, none, false⟩)
    , ("b", ⟨"b", "b", Plosive, 60, none, true⟩)
    , ("t", ⟨"t", "t", Plosive, 60, none, false⟩)
    , ("d", ⟨"d", "d", Plosive, 60, none, true⟩)
    , ("k", ⟨"k", "k", Plosive, 60, none, false⟩)
    , ("g", ⟨"g", "g", Plosive, 60, none, true⟩)
    , ("f", ⟨"f", "f", Fricative, 80, none, false⟩)
    , ("s", ⟨"s", "s", Fricative, 90, none, false⟩)
    , ("x", ⟨"x", "x", Fricative, 80, none, false⟩)
    , ("T", ⟨"T", "θ", Fricative, 80, none, false⟩)
    , ("tS", ⟨"tS", "tʃ", Affricate, 100, none, false⟩)
    , ("m", ⟨"m", "m", Nasal, 80, some (FormantValues.new 300 1000 2500), true⟩)
    , ("n", ⟨"n", "n", Nasal, 80, some (FormantValues.new 300 1500 2500), true⟩)
    , ("J", ⟨"J", "ɲ", Nasal, 80, some (FormantValues.new 300 1900 2700), true⟩)
    , ("l", ⟨"l", "l", Lateral, 70, some (FormantValues.new 350 1100 2700), true⟩)
    , ("L", ⟨"L", "ʎ", Lateral, 80, some (FormantValues.new 300 1900 2700), true⟩)
    , ("r", ⟨"r", "ɾ", Rhotic, 40, some (FormantValues.new 400 1400 2200), true⟩)
    , ("rr", ⟨"rr", "r", Rhotic, 120, some (FormantValues.new 400 1400 2200), true⟩)
    , ("j", ⟨"j", "j", Approximant, 60, some (FormantValues.new 280 2300 3000), true⟩)
    , ("w", ⟨"w", "w", Approximant, 60, some (FormantValues.new 300 700 2400), true⟩)
    , ("_", ⟨"_", "", Silence, 100, none, false⟩)
    ]

/-! Grapheme-to-phoneme conversion, from `src/g2p.rs`. -/

/-- A G2P rule (`G2PRule`, `src/g2p.rs:24`). -/
structure G2PRule where
  pattern : String
  left_context : String
  right_context : String
  phonemes : String
  priority : ℤ
deriving DecidableEq, Repr

/-- The comparator used when sorting a rule bucket
(`src/g2p.rs:228`): ascending under this `le` means priority descending,
then pattern byte length descending.  `le a b` holds when the Rust
comparator does not order `a` strictly after `b`. -/
def ruleLe (a b : G2PRule) : Bool :=
  b.priority < a.priority
    || (a.priority = b.priority && byteLen b.pattern ≤ byteLen a.pattern)

/-- Stable insertion of an element after all `le`-smaller-or-equal
elements; inserting the freshly pushed rule into an already sorted bucket
is exactly what the stable `sort_by` in `add_rule` computes. -/
def stableInsert (le : G2PRule → G2PRule → Bool) (x : G2PRule) :
    List G2PRule → List G2PRule
  | [] => [x]
  | y :: ys => if le y x then y :: stableInsert le x ys else x :: y :: ys

/-- Stable sort (insertion sort, processing elements left to right), the
same result as the repeated stable `sort_by` in `add_rule`. -/
def stableSortRules (l : List G2PRule) : List G2PRule :=
  l.foldl (fun acc x => stableInsert ruleLe x acc) []

/-- A G2P converter (`G2PConverter`, `src/g2p.rs:11`).  The rule map is an
association list keyed by the first character of the pattern; the
exception dictionary is an association list from word to phoneme string. -/
structure G2PConverter where
  language : String
  inventory : PhonemeInventory
  rules : List (Char × List G2PRule)
  exceptions : List (String × String)
deriving DecidableEq, Repr

/-- Replace the bucket stored under `key`, or append a new entry
(Rust `HashMap::entry(..).or_default()` followed by an in-place update). -/
def assocUpdate (key : Char) (f : List G2PRule → List G2PRule) :
    List (Char × List G2PRule) → List (Char × List G2PRule)
  | [] => [(key, f [])]
  | (k, v) :: rest =>
    if k = key then (k, f v) :: rest else (k, v) :: assocUpdate key f rest

/-- `G2PConverter::add_rule` (`src/g2p.rs:214`): push the rule into the
bucket of its first character and stably re-sort the bucket by priority
descending, pattern byte length descending. -/
def G2PConverter.add_rule (c : G2PConverter) (pattern left_context
    right_context phonemes : String) (priority : ℤ) : G2PConverter :=
  let rule : G2PRule := ⟨pattern, left_context, right_context, phonemes, priority⟩
  let key : Char := match pattern.data with | [] => '?' | ch :: _ => ch
  { c with rules := assocUpdate key (fun b => stableSortRules (b ++ [rule])) c.rules }

/-- Apply a sequence of `add_rule` calls in order. -/
def G2PConverter.add_rules (c : G2PConverter)
    (specs : List (String × String × String × String × ℤ)) : G2PConverter :=
  specs.foldl (fun acc s => acc.add_rule s.1 s.2.1 s.2.2.1 s.2.2.2.1 s.2.2.2.2) c

/-- `G2PConverter::load_english_rules` (`src/g2p.rs:64`): the exact rule
sequence of the source, in source order. -/
def G2PConverter.load_english_rules (c : G2PConverter) : G2PConverter :=
  c.add_rules
  [ ("a", "", "e$", "e", 10)
  , ("a", "", "", "&", 1)
  , ("e", "", "e$", "i", 10)
  , ("e", "", "$", "", 5)
  , ("e", "", "", "E", 1)
  , ("i", "", "e$", "aI", 10)
  , ("i", "", "", "I", 1)
  , ("o", "", "e$", "o", 10)
  , ("o", "", "", "A", 1)
  , ("u", "", "e$", "u", 10)
  , ("u", "", "", "@", 1)
  , ("ch", "", "", "tS", 20)
  , ("sh", "", "", "S", 20)
  , ("th", "", "", "T", 15)
  , ("ng", "", "", "N", 20)
  , ("ph", "", "", "f", 20)
  , ("wh", "", "", "w", 15)
  , ("ck", "", "", "k", 20)
  , ("ght", "", "", "t", 25)
  , ("gh", "", "", "", 20)
  , ("b", "", "", "b", 1)
  , ("c", "", "[ei]", "s", 10)
  , ("c", "", "", "k", 1)
  , ("d", "", "", "d", 1)
  , ("f", "", "", "f", 1)
  , ("g", "", "[ei]", "dZ", 8)
  , ("g", "", "", "g", 1)
  , ("h", "", "", "h", 1)
  , ("j", "", "", "dZ", 1)
  , ("k", "", "", "k", 1)
  , ("l", "", "", "l", 1)
  , ("m", "", "", "m", 1)
  , ("n", "", "", "n", 1)
  , ("p", "", "", "p", 1)
  , ("qu", "", "", "kw", 15)
  , ("r", "", "", "r", 1)
  , ("s", "", "", "s", 1)
  , ("t", "", "", "t", 1)
  , ("v", "", "", "v", 1)
  , ("w", "", "", "w", 1)
  , ("x", "", "", "ks", 1)
  , ("y", "^", "", "j", 10)
  , ("y", "", "", "i", 1)
  , ("z", "", "", "z", 1)
  , ("ea", "", "", "i", 15)
  , ("ee", "", "", "i", 15)
  , ("oo", "", "", "u", 15)
  , ("ou", "", "", "aU", 15)
  , ("ow", "", "", "aU", 10)
  , ("oi", "", "", "OI", 15)
  , ("oy", "", "", "OI", 15)
  , ("ai", "", "", "e", 15)
  , ("ay", "", "", "e", 15)
  , ("au", "", "", "O", 15)
  , ("aw", "", "", "O", 15) ]

/-- `G2PConverter::load_english_exceptions` (`src/g2p.rs:130`). -/
def G2PConverter.load_english_exceptions (c : G2PConverter) : G2PConverter :=
  { c with exceptions :=
      [ ("the", "D @"), ("a", "@"), ("is", "I z"), ("are", "A r")
      , ("was", "w A z"), ("were", "w 3 r"), ("have", "h & v")
      , ("has", "h & z"), ("had", "h & d"), ("do", "d u")
      , ("does", "d @ z"), ("did", "d I d"), ("to", "t u")
      , ("of", "@ v"), ("for", "f O r"), ("with", "w I T")
      , ("you", "j u"), ("this", "D I s"), ("that", "D & t")
      , ("one", "w @ n"), ("two", "t u"), ("hello", "h E l o")
      , ("world", "w 3 r l d") ] }

/-- `G2PConverter::load_spanish_rules` (`src/g2p.rs:158`): the exact rule
sequence of the source, in source order. -/
def G2PConverter.load_spanish_rules (c : G2PConverter) : G2PConverter :=
  c.add_rules
  [ ("a", "", "", "a", 1)
  , ("e", "", "", "e", 1)
  , ("i", "", "", "i", 1)
  , ("o", "", "", "o", 1)
  , ("u", "", "", "u", 1)
  , ("á", "", "", "a", 1)
  , ("é", "", "", "e", 1)
  , ("í", "", "", "i", 1)
  , ("ó", "", "", "o", 1)
  , ("ú", "", "", "u", 1)
  , ("ü", "", "", "u", 1)
  , ("ch", "", "", "tS", 20)
  , ("ll", "", "", "L", 20)
  , ("rr", "", "", "rr", 20)
  , ("ñ", "", "", "J", 20)
  , ("qu", "", "[ei]", "k", 20)
  , ("gu", "", "[ei]", "g", 20)
  , ("c", "", "[ei]", "T", 10)
  , ("c", "", "", "k", 1)
  , ("g", "", "[ei]", "x", 10)
  , ("g", "", "", "g", 1)
  , ("b", "", "", "b", 1)
  , ("d", "", "", "d", 1)
  , ("f", "", "", "f", 1)
  , ("h", "", "", "", 1)
  , ("j", "", "", "x", 1)
  , ("k", "", "", "k", 1)
  , ("l", "", "", "l", 1)
  , ("m", "", "", "m", 1)
  , ("n", "", "", "n", 1)
  , ("p", "", "", "p", 1)
  , ("r", "^", "", "rr", 5)
  , ("r", "", "", "r", 1)
  , ("s", "", "", "s", 1)
  , ("t", "", "", "t", 1)
  , ("v", "", "", "b", 1)
  , ("w", "", "", "w", 1)
  , ("x", "", "", "ks", 1)
  , ("y", "", "$", "i", 10)
  , ("y", "", "", "j", 1)
  , ("z", "", "", "T", 1) ]

/-- `G2PConverter::english` (`src/g2p.rs:39`). -/
def G2PConverter.english : G2PConverter :=
  ((G2PConverter.mk "en" PhonemeInventory.english [] []
    ).load_english_rules).load_english_exceptions

/-- `G2PConverter::spanish` (`src/g2p.rs:52`). -/
def G2PConverter.spanish : G2PConverter :=
  (G2PConverter.mk "es" PhonemeInventory.spanish [] []
    ).load_spanish_rules

/-- `G2PConverter::normalize` (`src/g2p.rs:252`): lowercase and keep only
alphabetic characters, whitespace, apostrophe and hyphen. -/
def G2PConverter.normalize (_c : G2PConverter) (text : String) : String :=
  String.mk ((text.data.map rustToLower).filter
    (fun ch => rustIsAlphabetic ch || rustIsWs ch || ch = apostrophe || ch = '-'))

/-- `G2PConverter::check_left_context` (`src/g2p.rs:309`). -/
def G2PConverter.check_left_context (_c : G2PConverter) (context : String)
    (pos : ℕ) : Bool :=
  if context = "" then true
  else if context = "^" then pos = 0
  else true

/-- `G2PConverter::check_right_context` (`src/g2p.rs:321`): `remaining` is
the not-yet-consumed tail of the word, `pattern_len` the pattern's byte
length, and the character index used by the source is that byte count. -/
def G2PConverter.check_right_context (_c : G2PConverter) (context : String)
    (remaining : List Char) (pattern_len : ℕ) : Bool :=
  if context = "" then true
  else
    let after_pattern := remaining.drop pattern_len
    if context = "$" then after_pattern = []
    else if context = "[ei]" then
      after_pattern.head? = some 'e' || after_pattern.head? = some 'i'
    else if context = "e$" then after_pattern = ['e']
    else true

/-- `G2PConverter::apply_rules` (`src/g2p.rs:288`): try the rules in the
bucket of the character at `pos` in order; the first rule whose pattern is
a prefix of the remaining word and whose contexts hold wins.  The fallback
skips one character and emits nothing. -/
def G2PConverter.apply_rules (c : G2PConverter) (chars : List Char)
    (pos : ℕ) : Option (String × ℕ) :=
  match (chars.drop pos).head? with
  | none => none
  | some current_char =>
    let remaining := chars.drop pos
    match (c.rules.lookup current_char).getD [] |>.find? (fun rule =>
        rule.pattern.data.isPrefixOf remaining
          && c.check_left_context rule.left_context pos
          && c.check_right_context rule.right_context remaining
              (byteLen rule.pattern)) with
    | some rule => some (rule.phonemes, rule.pattern.data.length)
    | none => some ("", 1)

/-- The per-position loop of `G2PConverter::convert_word`
(`src/g2p.rs:270`), with explicit fuel.  Every consumed count is at least
one for the rule tables of this engine, so fuel `chars.length` always
suffices; on exhaustion the accumulated result is returned. -/
def G2PConverter.convert_word_loop (c : G2PConverter) (chars : List Char) :
    ℕ → ℕ → List String → List String
  | _, 0, acc => acc.reverse
  | i, fuel + 1, acc =>
    if i < chars.length then
      match c.apply_rules chars i with
      | some (phonemes, consumed) =>
        c.convert_word_loop chars (i + consumed) fuel
          (if phonemes = "" then acc else phonemes :: acc)
      | none => c.convert_word_loop chars (i + 1) fuel acc
    else acc.reverse

/-- `G2PConverter::convert_word` (`src/g2p.rs:260`). -/
def G2PConverter.convert_word (c : G2PConverter) (word : String) : String :=
  match c.exceptions.lookup word with
  | some phonemes => phonemes
  | none =>
    let chars := word.data
    " ".intercalate (c.convert_word_loop chars 0 (chars.length + 1) [])

/-- `G2PConverter::convert` (`src/g2p.rs:236`).  The source signature is
`Result<String>` but no execution path constructs an error, so the model
returns the string directly. -/
def G2PConverter.convert (c : G2PConverter) (text : String) : String :=
  let normalized := c.normalize text
  let words := splitWs normalized
  " _ ".intercalate ((words.map c.convert_word).filter (fun p => ¬ p = ""))

/-! Prosody, from `src/prosody.rs`. -/

/-- Sentence types (`SentenceType`, `src/prosody.rs:8`). -/
inductive SentenceType where
  | Statement | Question | WhQuestion | Exclamation | Command
deriving DecidableEq, Repr

/-- Pitch contour patterns (`PitchContour`, `src/prosody.rs:69`). -/
inductive PitchContour where
  | Flat | Rising | Falling | FallingRising | Emphasized
deriving DecidableEq, Repr

/-- The interrogative words checked by `SentenceType::detect`
(`src/prosody.rs:35`). -/
def whWords : List String :=
  [ "what", "who", "where", "when", "why", "how", "which", "whose"
  , "qué", "quién", "dónde", "cuándo", "por qué", "cómo", "cuál" ]

/-- `SentenceType::detect` (`src/prosody.rs:25`): a trailing `?` or
leading `¿` makes a question, refined to `WhQuestion` when the lowercased
text, after stripping leading non-alphabetic characters, starts with one
of `whWords`; trailing `!` or leading `¡` makes an exclamation. -/
def SentenceType.detect (text : String) : SentenceType :=
  let trimmed := rustTrim text
  if trimmed.data.getLast? = some '?' || trimmed.data.head? = some '¿' then
    let lower := trimmed.data.map rustToLower
    let content := lower.dropWhile (fun c => ¬ rustIsAlphabetic c)
    if whWords.any (fun w => w.data.isPrefixOf content) then .WhQuestion
    else .Question
  else if trimmed.data.getLast? = some '!' || trimmed.data.head? = some '¡' then
    .Exclamation
  else .Statement

/-- Prosody configuration (`ProsodyConfig`, `src/prosody.rs:85`). -/
structure ProsodyConfig where
  pitch_multiplier : ℚ
  rate_multiplier : ℚ
  volume_multiplier : ℚ
  contour : PitchContour
  emphasis : ℚ
deriving DecidableEq, Repr

/-- `ProsodyConfig::default` (`src/prosody.rs:99`). -/
def ProsodyConfig.default : ProsodyConfig := ⟨1, 1, 1, .Flat, 0⟩

/-- `ProsodyConfig::with_pitch` (clamped to 0.5..2.0). -/
def ProsodyConfig.with_pitch (p : ProsodyConfig) (m : ℚ) : ProsodyConfig :=
  { p with pitch_multiplier := min (max m (1/2)) 2 }

/-- `ProsodyConfig::with_rate` (clamped to 0.25..4.0). -/
def ProsodyConfig.with_rate (p : ProsodyConfig) (m : ℚ) : ProsodyConfig :=
  { p with rate_multiplier := min (max m (1/4)) 4 }

/-- `ProsodyConfig::with_volume` (clamped to 0.0..2.0). -/
def ProsodyConfig.with_volume (p : ProsodyConfig) (m : ℚ) : ProsodyConfig :=
  { p with volume_multiplier := min (max m 0) 2 }

/-- `ProsodyConfig::with_contour`. -/
def ProsodyConfig.with_contour (p : ProsodyConfig) (c : PitchContour) :
    ProsodyConfig :=
  { p with contour := c }

/-- `ProsodyConfig::with_emphasis` (clamped to 0.0..1.0). -/
def ProsodyConfig.with_emphasis (p : ProsodyConfig) (e : ℚ) : ProsodyConfig :=
  { p with emphasis := min (max e 0) 1 }

/-- `ProsodyConfig::from_sentence_type` (`src/prosody.rs:154`). -/
def ProsodyConfig.from_sentence_type : SentenceType → ProsodyConfig
  | .Statement => ProsodyConfig.default.with_contour .Falling
  | .Question => (ProsodyConfig.default.with_contour .Rising).with_pitch (11/10)
  | .WhQuestion => ProsodyConfig.default.with_contour .FallingRising
  | .Exclamation =>
    ((ProsodyConfig.default.with_contour .Emphasized).with_emphasis (1/2)
      ).with_volume (12/10)
  | .Command => (ProsodyConfig.default.with_contour .Flat).with_emphasis (3/10)

/-- `ProsodyConfig::pitch_at_position` (`src/prosody.rs:180`). -/
def ProsodyConfig.pitch_at_position (p : ProsodyConfig) (position : ℚ) : ℚ :=
  let pos := min (max position 0) 1
  let contour_modifier : ℚ :=
    match p.contour with
    | .Flat => 1
    | .Rising => 1 + (3/10) * pos * pos
    | .Falling => 11/10 - (15/100) * pos
    | .FallingRising =>
      if pos < 1/2 then 105/100 - (15/100) * (pos / (1/2))
      else 9/10 + (2/10) * ((pos - 1/2) / (1/2))
    | .Emphasized =>
      if pos < 3/10 then 12/10 - (2/10) * (pos / (3/10))
      else if pos < 8/10 then 1 - (1/10) * ((pos - 3/10) / (5/10))
      else 9/10 + (1/10) * ((pos - 8/10) / (2/10))
  let emphasis_boost := 1 + p.emphasis * (2/10) * (1 - pos)
  p.pitch_multiplier * contour_modifier * emphasis_boost

/-- A prosodic phrase segment (`PhraseSegment`, `src/prosody.rs:235`). -/
structure PhraseSegment where
  text : String
  prosody : ProsodyConfig
  start_position : ℚ
  end_position : ℚ
deriving DecidableEq, Repr

/-- Sentence-terminator test of `PhraseAnalyzer::split_sentences`
(`src/prosody.rs:311`): a terminator splits except a `.` followed by a
character that is neither whitespace nor uppercase. -/
def isSentenceEnd (chars : List Char) (i : ℕ) (c : Char) : Bool :=
  (c = '.' || c = '!' || c = '?' || c = '¿' || c = '¡')
    && (¬ c = '.'
        || i + 1 ≥ chars.length
        || (match (chars.drop (i+1)).head? with
            | some next => rustIsWs next || ('A' ≤ next && next ≤ 'Z')
                || next = 'Á' || next = 'É' || next = 'Í' || next = 'Ó'
                || next = 'Ú' || next = 'Ü' || next = 'Ñ'
            | none => false))

/-- The scanning loop of `PhraseAnalyzer::split_sentences`: walk the
characters, cutting a sentence after each terminator, trimming and
dropping empty fragments.  Fuel `chars.length + 1` always suffices. -/
def splitSentencesLoop (chars : List Char) :
    ℕ → ℕ → ℕ → List String → List String
  | 0, _, _, acc => acc.reverse
  | fuel + 1, i, start, acc =>
    if h : i < chars.length then
      let c := chars.get ⟨i, h⟩
      if isSentenceEnd chars i c then
        let sentence := String.mk ((chars.drop start).take (i + 1 - start))
        let acc' := if rustTrim sentence = "" then acc
                    else rustTrim sentence :: acc
        splitSentencesLoop chars fuel (i+1) (i+1) acc'
      else splitSentencesLoop chars fuel (i+1) start acc
    else
      let rest := String.mk (chars.drop start)
      if start < chars.length && ¬ rustTrim rest = "" then
        (rustTrim rest :: acc).reverse
      else acc.reverse

/-- `PhraseAnalyzer::split_sentences` (`src/prosody.rs:305`). -/
def splitSentences (text : String) : List String :=
  let sentences := splitSentencesLoop text.data (text.data.length + 1) 0 0 []
  if sentences = [] && ¬ rustTrim text = "" then [rustTrim text]
  else sentences

/-- The per-sentence loop of `PhraseAnalyzer::analyze`. -/
def analyzeLoop (total_len : ℕ) : List String → ℕ → List PhraseSegment
  | [], _ => []
  | s :: rest, current_pos =>
    let sentence_len := byteLen s
    if sentence_len = 0 then analyzeLoop total_len rest current_pos
    else
      let start : ℚ := (current_pos : ℚ) / (total_len : ℚ)
      let stop : ℚ := ((current_pos + sentence_len : ℕ) : ℚ) / (total_len : ℚ)
      let st := SentenceType.detect s
      ⟨s, ProsodyConfig.from_sentence_type st, start, stop⟩
        :: analyzeLoop total_len rest (current_pos + sentence_len)

/-- `PhraseAnalyzer::analyze` (`src/prosody.rs:272`). -/
def PhraseAnalyzer.analyze (text : String) : List PhraseSegment :=
  let sentences := splitSentences text
  let total_len : ℕ := (sentences.map byteLen).sum
  if total_len = 0 then []
  else analyzeLoop total_len sentences 0

/-! Voice configuration, from `src/voice.rs`. -/

/-- Supported languages (`Language`, `src/voice.rs:8`). -/
inductive Language where
  | English | Spanish
deriving DecidableEq, Repr

/-- `Language::code`. -/
def Language.code : Language → String
  | .English => "en"
  | .Spanish => "es"

/-- `Language::from_code` (`src/voice.rs:39`). -/
def Language.from_code (code : String) : Option Language :=
  let lower := String.mk (code.data.map rustToLower)
  if lower = "en" || lower = "eng" || lower = "english"
      || lower = "en-us" || lower = "en-gb" then some .English
  else if lower = "es" || lower = "spa" || lower = "spanish"
      || lower = "es-es" || lower = "es-mx" then some .Spanish
  else none

/-- Voice variants (`VoiceVariant`, `src/voice.rs:58`). -/
inductive VoiceVariant where
  | Default | Male1 | Male2 | Male3 | Female1 | Female2 | Female3
deriving DecidableEq, Repr

/-- `VoiceVariant::base_pitch_hz` (`src/voice.rs:79`). -/
def VoiceVariant.base_pitch_hz : VoiceVariant → ℚ
  | .Default => 130 | .Male1 => 100 | .Male2 => 120 | .Male3 => 140
  | .Female1 => 180 | .Female2 => 200 | .Female3 => 220

/-- Voice configuration (`VoiceConfig`, `src/voice.rs:109`): `rate` is a
`u32` in words per minute, `pitch` an `i8`, `volume` a `u8`. -/
structure VoiceConfig where
  language : Language
  variant : VoiceVariant
  rate : ℕ
  pitch : ℤ
  volume : ℕ
deriving DecidableEq, Repr

/-- `VoiceConfig::new` (`src/voice.rs:125`). -/
def VoiceConfig.new (language : Language) : VoiceConfig :=
  ⟨language, .Default, 175, 0, 100⟩

/-- `VoiceConfig::default` (English). -/
def VoiceConfig.default : VoiceConfig := VoiceConfig.new .English

/-- `VoiceConfig::with_rate` (clamped to 50..500). -/
def VoiceConfig.with_rate (c : VoiceConfig) (rate : ℕ) : VoiceConfig :=
  { c with rate := min (max rate 50) 500 }

/-- `VoiceConfig::with_pitch` (clamped to -100..100). -/
def VoiceConfig.with_pitch (c : VoiceConfig) (pitch : ℤ) : VoiceConfig :=
  { c with pitch := min (max pitch (-100)) 100 }

/-- `VoiceConfig::with_volume` (clamped to 0..200). -/
def VoiceConfig.with_volume (c : VoiceConfig) (volume : ℕ) : VoiceConfig :=
  { c with volume := min volume 200 }

/-- `VoiceConfig::with_variant`. -/
def VoiceConfig.with_variant (c : VoiceConfig) (v : VoiceVariant) : VoiceConfig :=
  { c with variant := v }

/-- `VoiceConfig::effective_pitch_hz` (`src/voice.rs:164`). -/
def VoiceConfig.effective_pitch_hz (c : VoiceConfig) : ℚ :=
  c.variant.base_pitch_hz * (1 + ((c.pitch : ℚ) / 100) * (1/2))

/-- `VoiceConfig::rate_multiplier` (`src/voice.rs:171`). -/
def VoiceConfig.rate_multiplier (c : VoiceConfig) : ℚ :=
  (c.rate : ℚ) / 175

/-- `VoiceConfig::volume_level` (`src/voice.rs:176`). -/
def VoiceConfig.volume_level (c : VoiceConfig) : ℚ :=
  (c.volume : ℚ) / 100

/-! Formant synthesis engine, from `src/formant.rs`.  Sample values are
exact rationals; the `f32` transcendentals used by the resonator
coefficients and the SSML attribute parsers are abstract operations. -/

/-- Abstract models of the `f32` transcendental operations: `exp`,
`cos`, `2^x` and `10^x`.  Every claim proved below either holds for all
interpretations or only needs that both compared runs use the same one. -/
structure FOps where
  fexp : ℚ → ℚ
  fcos : ℚ → ℚ
  fpow2 : ℚ → ℚ
  fpow10 : ℚ → ℚ

/-- A concrete interpretation used to instantiate witnesses. -/
def FOps.zero : FOps := ⟨fun _ => 0, fun _ => 0, fun _ => 0, fun _ => 0⟩

/-- The fixed output sample rate (`SAMPLE_RATE`, `src/formant.rs:11`). -/
def SAMPLE_RATE : ℕ := 22050

/-- Audio output (`AudioOutput`, `src/formant.rs:15`): 16-bit signed PCM
samples are modelled as integers. -/
structure AudioOutput where
  samples : List ℤ
  sample_rate : ℕ
  channels : ℕ
deriving DecidableEq, Repr

/-- Synthesis configuration (`SynthesisConfig`, `src/formant.rs:47`). -/
structure SynthesisConfig where
  pitch_hz : ℚ
  rate : ℚ
  volume : ℚ
  sample_rate : ℕ
deriving DecidableEq, Repr

/-- A second-order resonator (`Resonator`, `src/formant.rs:89`). -/
structure Resonator where
  a : ℚ
  b : ℚ
  c : ℚ
  y1 : ℚ
  y2 : ℚ
deriving DecidableEq, Repr

/-- The rational approximation of `f32` π used throughout the source via
`std::f32::consts::PI`; its value never matters for the claims (it only
feeds the abstract `exp`/`cos`), it is fixed here for definiteness. -/
def piQ : ℚ := 16860981 / 5367043

/-- `Resonator::new` (`src/formant.rs:99`). -/
def Resonator.new (ops : FOps) (freq bandwidth sample_rate : ℚ) : Resonator :=
  let c := -(ops.fexp (-2 * piQ * bandwidth / sample_rate))
  let b := 2 * ops.fexp (-piQ * bandwidth / sample_rate)
              * ops.fcos (2 * piQ * freq / sample_rate)
  let a := 1 - b - c
  ⟨a, b, c, 0, 0⟩

/-- `Resonator::process` (`src/formant.rs:114`). -/
def Resonator.process (r : Resonator) (x : ℚ) : ℚ × Resonator :=
  let y := r.a * x + r.b * r.y1 + r.c * r.y2
  (y, { r with y2 := r.y1, y1 := y })

/-- `Resonator::set_params` (`src/formant.rs:129`). -/
def Resonator.set_params (r : Resonator) (ops : FOps)
    (freq bandwidth sample_rate : ℚ) : Resonator :=
  let c := -(ops.fexp (-2 * piQ * bandwidth / sample_rate))
  let b := 2 * ops.fexp (-piQ * bandwidth / sample_rate)
              * ops.fcos (2 * piQ * freq / sample_rate)
  { r with a := 1 - b - c, b := b, c := c }

/-- The formant synthesizer state (`FormantSynthesizer`,
`src/formant.rs:137`); `noise_state` is the `u32` LCG state. -/
structure FormantSynthesizer where
  config : SynthesisConfig
  formant1 : Resonator
  formant2 : Resonator
  formant3 : Resonator
  nasal : Resonator
  pitch_phase : ℚ
  noise_state : ℕ
deriving DecidableEq, Repr

/-- `FormantSynthesizer::new` (`src/formant.rs:152`): fresh resonators,
zero pitch phase, LCG state 12345. -/
def FormantSynthesizer.new (ops : FOps) (config : SynthesisConfig) :
    FormantSynthesizer :=
  let sr : ℚ := (config.sample_rate : ℚ)
  { config := config
  , formant1 := Resonator.new ops 500 60 sr
  , formant2 := Resonator.new ops 1500 90 sr
  , formant3 := Resonator.new ops 2500 150 sr
  , nasal := Resonator.new ops 300 100 sr
  , pitch_phase := 0
  , noise_state := 12345 }

/-- `FormantSynthesizer::noise` (`src/formant.rs:178`): a 32-bit linear
congruential generator; bits 16..30 rescaled to `[-1, 1]`. -/
def FormantSynthesizer.noise (s : FormantSynthesizer) :
    ℚ × FormantSynthesizer :=
  let state := (s.noise_state * 1103515245 + 12345) % 4294967296
  let val : ℚ := ((Nat.land (state / 65536) 32767 : ℕ) : ℚ) / 32767
  (val * 2 - 1, { s with noise_state := state })

/-- `FormantSynthesizer::glottal_pulse` (`src/formant.rs:186`). -/
def FormantSynthesizer.glottal_pulse (s : FormantSynthesizer) (f0 : ℚ) :
    ℚ × FormantSynthesizer :=
  let sample_rate : ℚ := (s.config.sample_rate : ℚ)
  let phase_inc := f0 / sample_rate
  let ph := s.pitch_phase + phase_inc
  let ph := if 1 ≤ ph then ph - 1 else ph
  let t := ph
  let v : ℚ :=
    if t < 2/5 then
      let x := t / (2/5)
      3 * x * x - 2 * x * x * x
    else if t < 3/5 then
      let x := (t - 2/5) / (1/5)
      1 - x * x
    else 0
  (v, { s with pitch_phase := ph })

/-- `FormantSynthesizer::amplitude_envelope` (`src/formant.rs:371`). -/
def FormantSynthesizer.amplitude_envelope (_s : FormantSynthesizer)
    (sample total : ℕ) : ℚ :=
  let attack_len := ratToNat ((total : ℚ) * (1/10))
  let decay_len := ratToNat ((total : ℚ) * (15/100))
  if sample < attack_len then (sample : ℚ) / (attack_len : ℚ)
  else if total - decay_len < sample then
    ((total - sample : ℕ) : ℚ) / (decay_len : ℚ)
  else 1

/-- Generic per-sample loop: run `step` for iterations `i, i+1, ...`
collecting one sample per iteration and threading the synthesizer state.
All the category loops in `src/formant.rs` have this shape. -/
def iterSamples (step : ℕ → FormantSynthesizer → ℚ × FormantSynthesizer) :
    ℕ → ℕ → FormantSynthesizer → List ℚ × FormantSynthesizer
  | _, 0, s => ([], s)
  | i, n + 1, s =>
    let r := step i s
    let rest := iterSamples step (i + 1) n r.2
    (r.1 :: rest.1, rest.2)

/-- The loop body of `synthesize_vowel` (`src/formant.rs:260`). -/
def vowelStep (samples : ℕ) (i : ℕ) (s : FormantSynthesizer) :
    ℚ × FormantSynthesizer :=
  let env := s.amplitude_envelope i samples
  let rg := s.glottal_pulse s.config.pitch_hz
  let source := rg.1
  let r1 := rg.2.formant1.process source
  let r2 := rg.2.formant2.process source
  let r3 := rg.2.formant3.process source
  let s1 := { rg.2 with formant1 := r1.2, formant2 := r2.2, formant3 := r3.2 }
  ((r1.1 * 1 + r2.1 * (1/2) + r3.1 * (1/4)) * env * s1.config.volume, s1)

/-- `FormantSynthesizer::synthesize_vowel` (`src/formant.rs:252`). -/
def FormantSynthesizer.synthesize_vowel (s : FormantSynthesizer) (ops : FOps)
    (fv : FormantValues) (samples : ℕ) : List ℚ × FormantSynthesizer :=
  let sr : ℚ := (s.config.sample_rate : ℚ)
  let s := { s with
    formant1 := s.formant1.set_params ops fv.f1 fv.b1 sr
    formant2 := s.formant2.set_params ops fv.f2 fv.b2 sr
    formant3 := s.formant3.set_params ops fv.f3 fv.b3 sr }
  iterSamples (vowelStep samples) 0 samples s

/-- The loop body of `synthesize_nasal` (`src/formant.rs:285`). -/
def nasalStep (samples : ℕ) (i : ℕ) (s : FormantSynthesizer) :
    ℚ × FormantSynthesizer :=
  let env := s.amplitude_envelope i samples
  let rg := s.glottal_pulse s.config.pitch_hz
  let source := rg.1
  let r1 := rg.2.formant1.process source
  let rn := rg.2.nasal.process source
  let s1 := { rg.2 with formant1 := r1.2, nasal := rn.2 }
  ((r1.1 * (3/10) + rn.1 * (7/10)) * env * s1.config.volume, s1)

/-- `FormantSynthesizer::synthesize_nasal` (`src/formant.rs:279`). -/
def FormantSynthesizer.synthesize_nasal (s : FormantSynthesizer) (ops : FOps)
    (fv : FormantValues) (samples : ℕ) : List ℚ × FormantSynthesizer :=
  let sr : ℚ := (s.config.sample_rate : ℚ)
  let s := { s with
    formant1 := s.formant1.set_params ops fv.f1 (fv.b1 * (3/2)) sr
    nasal := s.nasal.set_params ops 250 100 sr }
  iterSamples (nasalStep samples) 0 samples s

/-- The burst-phase loop body of `synthesize_plosive`
(`src/formant.rs:305`). -/
def plosiveBurstStep (voiced : Bool) (burst_samples : ℕ) (i : ℕ)
    (s : FormantSynthesizer) : ℚ × FormantSynthesizer :=
  let env := (1 - (i : ℚ) / (burst_samples : ℚ)) ^ 2
  let rn := s.noise
  let rv :=
    if voiced then
      let rg := rn.2.glottal_pulse rn.2.config.pitch_hz
      (rg.1 * (3/10), rg.2)
    else (0, rn.2)
  ((rn.1 * (4/10) + rv.1) * env * rv.2.config.volume, rv.2)

/-- `FormantSynthesizer::synthesize_plosive` (`src/formant.rs:298`):
closure (two thirds, silence) then a noise burst. -/
def FormantSynthesizer.synthesize_plosive (s : FormantSynthesizer)
    (voiced : Bool) (samples : ℕ) : List ℚ × FormantSynthesizer :=
  let closure_samples := samples * 2 / 3
  let burst_samples := samples - closure_samples
  let res := iterSamples (plosiveBurstStep voiced burst_samples) 0
    burst_samples s
  (List.replicate closure_samples 0 ++ res.1, res.2)

/-- The loop body of `synthesize_fricative` (`src/formant.rs:321`). -/
def fricativeStep (voiced : Bool) (samples : ℕ) (i : ℕ)
    (s : FormantSynthesizer) : ℚ × FormantSynthesizer :=
  let env := s.amplitude_envelope i samples
  let rn := s.noise
  let rv :=
    if voiced then
      let rg := rn.2.glottal_pulse rn.2.config.pitch_hz
      (rg.1 * (4/10), rg.2)
    else (0, rn.2)
  ((rn.1 * (6/10) + rv.1) * env * rv.2.config.volume * (1/2), rv.2)

/-- `FormantSynthesizer::synthesize_fricative` (`src/formant.rs:320`). -/
def FormantSynthesizer.synthesize_fricative (s : FormantSynthesizer)
    (voiced : Bool) (samples : ℕ) : List ℚ × FormantSynthesizer :=
  iterSamples (fricativeStep voiced samples) 0 samples s

/-- `FormantSynthesizer::synthesize_affricate` (`src/formant.rs:336`):
a plosive third followed by a fricative remainder. -/
def FormantSynthesizer.synthesize_affricate (s : FormantSynthesizer)
    (voiced : Bool) (samples : ℕ) : List ℚ × FormantSynthesizer :=
  let plosive_samples := samples / 3
  let resP := s.synthesize_plosive voiced plosive_samples
  let fricative_samples := samples - plosive_samples
  let resF := resP.2.synthesize_fricative voiced fricative_samples
  (resP.1 ++ resF.1, resF.2)

/-- The loop body of `synthesize_approximant` (`src/formant.rs:353`). -/
def approximantStep (voiced : Bool) (samples : ℕ) (i : ℕ)
    (s : FormantSynthesizer) : ℚ × FormantSynthesizer :=
  let env := s.amplitude_envelope i samples
  let rs :=
    if voiced then s.glottal_pulse s.config.pitch_hz
    else
      let rn := s.noise
      (rn.1 * (3/10), rn.2)
  let r1 := rs.2.formant1.process rs.1
  let r2 := rs.2.formant2.process rs.1
  let s1 := { rs.2 with formant1 := r1.2, formant2 := r2.2 }
  ((r1.1 * (7/10) + r2.1 * (3/10)) * env * s1.config.volume * (7/10), s1)

/-- `FormantSynthesizer::synthesize_approximant` (`src/formant.rs:347`). -/
def FormantSynthesizer.synthesize_approximant (s : FormantSynthesizer)
    (ops : FOps) (fv : FormantValues) (voiced : Bool) (samples : ℕ) :
    List ℚ × FormantSynthesizer :=
  let sr : ℚ := (s.config.sample_rate : ℚ)
  let s := { s with
    formant1 := s.formant1.set_params ops fv.f1 (fv.b1 * (12/10)) sr
    formant2 := s.formant2.set_params ops fv.f2 (fv.b2 * (12/10)) sr }
  iterSamples (approximantStep voiced samples) 0 samples s

/-- `FormantSynthesizer::synthesize_phoneme` (`src/formant.rs:212`):
dispatch on the phoneme category; the duration in samples truncates
`duration_ms / 1000 * sample_rate / rate`. -/
def FormantSynthesizer.synthesize_phoneme (s : FormantSynthesizer)
    (ops : FOps) (p : Phoneme) (duration_ms : ℕ) :
    List ℚ × FormantSynthesizer :=
  let sample_rate : ℚ := (s.config.sample_rate : ℚ)
  let duration_samples :=
    ratToNat ((duration_ms : ℚ) / 1000 * sample_rate / s.config.rate)
  match p.category with
  | .Silence => (List.replicate duration_samples 0, s)
  | .Vowel | .Diphthong =>
    match p.formants with
    | some fv => s.synthesize_vowel ops fv duration_samples
    | none => ([], s)
  | .Nasal =>
    match p.formants with
    | some fv => s.synthesize_nasal ops fv duration_samples
    | none => ([], s)
  | .Plosive => s.synthesize_plosive p.voiced duration_samples
  | .Fricative => s.synthesize_fricative p.voiced duration_samples
  | .Affricate => s.synthesize_affricate p.voiced duration_samples
  | .Lateral | .Rhotic | .Approximant =>
    match p.formants with
    | some fv => s.synthesize_approximant ops fv p.voiced duration_samples
    | none => ([], s)

/-- The number of pause samples the `_` token contributes in
`synthesize_phonemes` (`src/formant.rs:391`). -/
def pauseSamples (cfg : SynthesisConfig) : ℕ :=
  ratToNat ((1/10) * (cfg.sample_rate : ℚ) / cfg.rate)

/-- The per-phoneme duration argument computed by `synthesize_phonemes`
(`src/formant.rs:397`): the inventory duration already divided by the rate
multiplier and truncated to `u32`. -/
def scaledDuration (cfg : SynthesisConfig) (duration_ms : ℕ) : ℕ :=
  ratToNat ((duration_ms : ℚ) / cfg.rate)

/-- The token loop of `FormantSynthesizer::synthesize_phonemes`
(`src/formant.rs:385`), over the whitespace-separated token list. -/
def synthesizePhonemeList (ops : FOps) (inv : PhonemeInventory) :
    List String → FormantSynthesizer → List ℚ × FormantSynthesizer
  | [], s => ([], s)
  | tok :: rest, s =>
    if tok = "_" then
      let pause := pauseSamples s.config
      let res := synthesizePhonemeList ops inv rest s
      (List.replicate pause 0 ++ res.1, res.2)
    else
      match inv.get tok with
      | some p =>
        let duration := scaledDuration s.config p.duration_ms
        let r1 := s.synthesize_phoneme ops p duration
        let r2 := synthesizePhonemeList ops inv rest r1.2
        (r1.1 ++ r2.1, r2.2)
      | none => synthesizePhonemeList ops inv rest s

/-- `FormantSynthesizer::synthesize_phonemes` (`src/formant.rs:385`).  The
source signature is `Result<Vec<f32>>` but no path errs. -/
def FormantSynthesizer.synthesize_phonemes (s : FormantSynthesizer)
    (ops : FOps) (phoneme_str : String) (inv : PhonemeInventory) :
    List ℚ × FormantSynthesizer :=
  synthesizePhonemeList ops inv (splitWs phoneme_str) s

/-- One PCM16 sample: clamp to `[-1, 1]`, scale by 32767, truncate
(`src/formant.rs:407`). -/
def pcmSample (s : ℚ) : ℤ :=
  ratTrunc (min (max s (-1)) 1 * 32767)

/-- `FormantSynthesizer::to_pcm16` (`src/formant.rs:407`). -/
def to_pcm16 (samples : List ℚ) : List ℤ :=
  samples.map pcmSample

/-- `FormantSynthesizer::synthesize_phoneme_with_pitch_mod`
(`src/streaming.rs:363`): scale the pitch, synthesize, restore. -/
def FormantSynthesizer.synthesize_phoneme_with_pitch_mod
    (s : FormantSynthesizer) (ops : FOps) (p : Phoneme) (duration_ms : ℕ)
    (pitch_mod : ℚ) : List ℚ × FormantSynthesizer :=
  let original_pitch := s.config.pitch_hz
  let s := { s with config := { s.config with pitch_hz := original_pitch * pitch_mod } }
  let res := s.synthesize_phoneme ops p duration_ms
  (res.1, { res.2 with config := { res.2.config with pitch_hz := original_pitch } })

/-! SSML front end, from `src/ssml.rs`. -/

/-- Break strength levels (`BreakStrength`, `src/ssml.rs:76`). -/
inductive BreakStrength where
  | None | XWeak | Weak | Medium | Strong | XStrong
deriving DecidableEq, Repr

/-- `BreakStrength::to_ms` (`src/ssml.rs:95`). -/
def BreakStrength.to_ms : BreakStrength → ℕ
  | .None => 0 | .XWeak => 100 | .Weak => 200
  | .Medium => 400 | .Strong => 600 | .XStrong => 1000

/-- `BreakStrength::parse` (`src/ssml.rs:108`). -/
def BreakStrength.parse (s : String) : BreakStrength :=
  let l := String.mk (s.data.map rustToLower)
  if l = "none" then .None
  else if l = "x-weak" then .XWeak
  else if l = "weak" then .Weak
  else if l = "medium" then .Medium
  else if l = "strong" then .Strong
  else if l = "x-strong" then .XStrong
  else .Medium

/-- Break specification (`BreakSpec`, `src/ssml.rs:58`). -/
structure BreakSpec where
  time_ms : ℕ
  strength : BreakStrength
deriving DecidableEq, Repr

/-- `BreakSpec::default` (`src/ssml.rs:66`). -/
def BreakSpec.default : BreakSpec := ⟨0, .Medium⟩

/-- Emphasis levels (`EmphasisLevel`, `src/ssml.rs:123`). -/
inductive EmphasisLevel where
  | Reduced | None | Moderate | Strong
deriving DecidableEq, Repr

/-- `EmphasisLevel::parse` (`src/ssml.rs:138`). -/
def EmphasisLevel.parse (s : String) : EmphasisLevel :=
  let l := String.mk (s.data.map rustToLower)
  if l = "reduced" then .Reduced
  else if l = "none" then .None
  else if l = "moderate" then .Moderate
  else if l = "strong" then .Strong
  else .Moderate

/-- `EmphasisLevel::to_emphasis_value` (`src/ssml.rs:150`). -/
def EmphasisLevel.to_emphasis_value : EmphasisLevel → ℚ
  | .Reduced => 0 | .None => 0 | .Moderate => 1/2 | .Strong => 1

/-- `EmphasisLevel::to_volume_multiplier` (`src/ssml.rs:161`). -/
def EmphasisLevel.to_volume_multiplier : EmphasisLevel → ℚ
  | .Reduced => 8/10 | .None => 1 | .Moderate => 11/10 | .Strong => 13/10

/-- SSML elements (`SsmlElement`, `src/ssml.rs:12`). -/
inductive SsmlElement where
  | Text (text : String)
  | Break (spec : BreakSpec)
  | Prosody (children : List SsmlElement) (config : ProsodyConfig)
  | Emphasis (children : List SsmlElement) (level : EmphasisLevel)
  | SayAs (text : String) (interpret_as : String)
  | Sub (aliasText : String)
  | Voice (children : List SsmlElement) (name : Option String)
  | Paragraph (children : List SsmlElement)
  | Sentence (children : List SsmlElement)

/-- A synthesis segment (`SynthesisSegment`, `src/ssml.rs:328`). -/
structure SynthesisSegment where
  text : String
  prosody : ProsodyConfig
deriving DecidableEq, Repr

/-- A parsed SSML document (`SsmlDocument`, `src/ssml.rs:173`). -/
structure SsmlDocument where
  elements : List SsmlElement

/-- ASCII decimal digit test (Rust `u32`/`f32` parsing). -/
def isAsciiDigit (c : Char) : Bool := '0' ≤ c && c ≤ '9'

/-- Numeric value of a run of ASCII digits (most significant first). -/
def digitsVal (chars : List Char) : ℕ :=
  chars.foldl (fun acc c => acc * 10 + (c.toNat - 48)) 0

/-- Model of Rust `str::parse::<u32>`: optional leading sign, at least one
digit, value below `2^32`. -/
def rustParseU32 (s : String) : Option ℕ :=
  let ds := match s.data with
    | c :: rest => if c = '+' then rest else s.data
    | [] => []
  if ds ≠ [] && ds.all isAsciiDigit && digitsVal ds < 4294967296 then
    some (digitsVal ds)
  else none

/-- Model of Rust `str::parse::<f32>` on plain decimal literals (optional
sign, digits, optional fraction); the engine feeds it only attribute
values of this shape. -/
def rustParseQ (s : String) : Option ℚ :=
  let (sign, ds) : ℚ × List Char := match s.data with
    | c :: rest =>
      if c = '+' then (1, rest) else if c = '-' then (-1, rest) else (1, s.data)
    | [] => (1, [])
  match ds.splitOn '.' with
  | [intPart] =>
    if intPart ≠ [] && intPart.all isAsciiDigit then
      some (sign * (digitsVal intPart : ℚ))
    else none
  | [intPart, fracPart] =>
    if (intPart ≠ [] || fracPart ≠ []) && intPart.all isAsciiDigit
        && fracPart.all isAsciiDigit then
      some (sign * ((digitsVal intPart : ℚ)
        + (digitsVal fracPart : ℚ) / ((10 : ℚ) ^ fracPart.length)))
    else none
  | _ => none

/-- Little-endian decimal digits with fuel (fuel `n` always suffices). -/
def natDigitsRev (fuel : ℕ) (n : ℕ) : List ℕ :=
  match fuel with
  | 0 => []
  | fuel + 1 => if n = 0 then [] else n % 10 :: natDigitsRev fuel (n / 10)

/-- Decimal rendering of a natural number (Rust `format!`). -/
def natToString (n : ℕ) : String :=
  if n = 0 then "0"
  else String.mk (((natDigitsRev n n).reverse).map (fun d => Char.ofNat (48 + d)))

/-- The break sentinel text `__break_<ms>__` built by `collect_segments`
(`src/ssml.rs:269`). -/
def breakSentinel (duration : ℕ) : String :=
  "__break_" ++ natToString duration ++ "__"

/-- Substring search: the byte offset of the first occurrence of `pat`
(Rust `str::find`). -/
def findSub (pat : List Char) : List Char → Option ℕ
  | [] => if pat = [] then some 0 else none
  | c :: rest =>
    if pat.isPrefixOf (c :: rest) then some 0
    else (findSub pat rest).map (· + 1)

/-- `decode_entities` (`src/ssml.rs:793`): the same `replace` chain as the
source. -/
def decode_entities (s : String) : String :=
  strReplace (strReplace (strReplace (strReplace (strReplace s
    "&amp;" "&") "&lt;" "<") "&gt;" ">")
    "&quot;" (String.mk [Char.ofNat 34]))
    "&apos;" (String.mk [apostrophe])

/-- `parse_duration` (`src/ssml.rs:681`): `"500ms"`, `"1.5s"` or a bare
number, to milliseconds. -/
def parse_duration (s : String) : ℕ :=
  let t := String.mk ((rustTrim s).data.map rustToLower)
  if strEndsWith t "ms" then
    (rustParseU32 (rustTrim (String.mk (t.data.take (t.data.length - 2))))).getD 0
  else if strEndsWith t "s" then
    let secs := (rustParseQ (rustTrim (String.mk (t.data.take (t.data.length - 1))))).getD 0
    ratToNat (secs * 1000)
  else (rustParseU32 t).getD 0

/-- `parse_rate` (`src/ssml.rs:695`). -/
def parse_rate (s : String) : ℚ :=
  let t := String.mk ((rustTrim s).data.map rustToLower)
  if t = "x-slow" then 1/2
  else if t = "slow" then 3/4
  else if t = "medium" then 1
  else if t = "fast" then 5/4
  else if t = "x-fast" then 3/2
  else if t = "default" then 1
  else if strEndsWith t "%" then
    ((rustParseQ (rustTrim (String.mk (t.data.take (t.data.length - 1))))).getD 100) / 100
  else (rustParseQ t).getD 1

/-- `parse_pitch` (`src/ssml.rs:718`): keywords, percentages, semitones
(via the abstract `2^x`), or a bare multiplier; relative Hz is 1.0. -/
def parse_pitch (ops : FOps) (s : String) : ℚ :=
  let t := String.mk ((rustTrim s).data.map rustToLower)
  if t = "x-low" then 1/2
  else if t = "low" then 3/4
  else if t = "medium" then 1
  else if t = "high" then 5/4
  else if t = "x-high" then 3/2
  else if t = "default" then 1
  else if strEndsWith t "%" then
    ((rustParseQ (rustTrim (String.mk (t.data.take (t.data.length - 1))))).getD 100) / 100
  else if strEndsWith t "st" then
    let semitones := (rustParseQ (rustTrim (String.mk (t.data.take (t.data.length - 2))))).getD 0
    ops.fpow2 (semitones / 12)
  else if strEndsWith t "hz" then 1
  else (rustParseQ t).getD 1

/-- `parse_volume` (`src/ssml.rs:748`). -/
def parse_volume (ops : FOps) (s : String) : ℚ :=
  let t := String.mk ((rustTrim s).data.map rustToLower)
  if t = "silent" then 0
  else if t = "x-soft" then 1/4
  else if t = "soft" then 1/2
  else if t = "medium" then 1
  else if t = "loud" then 3/2
  else if t = "x-loud" then 2
  else if t = "default" then 1
  else if strEndsWith t "%" then
    ((rustParseQ (rustTrim (String.mk (t.data.take (t.data.length - 1))))).getD 100) / 100
  else if strEndsWith t "db" then
    let db := (rustParseQ (rustTrim (String.mk (t.data.take (t.data.length - 2))))).getD 0
    ops.fpow10 (db / 20)
  else (rustParseQ t).getD 1

/-- `parse_contour` (`src/ssml.rs:775`). -/
def parse_contour (s : String) : PitchContour :=
  let t := String.mk ((rustTrim s).data.map rustToLower)
  if t.data.any (· = '+') || strEndsWith t ")" then
    if findSub "100%,+".data t.data ≠ none || findSub "100%, +".data t.data ≠ none then
      .Rising
    else if findSub "100%,-".data t.data ≠ none || findSub "100%, -".data t.data ≠ none then
      .Falling
    else .Flat
  else .Flat

/-- Structural form of the four syntax errors raised by
`SimpleXmlParser` (`src/ssml.rs:425,441,608,624`).  The source carries
them as `SynthesizerError::SynthesisError` message strings; the
constructors here are in bijection with those construction sites:
`emptyTagName` for an empty tag name, `missingGt tag` for a missing
closing angle bracket after `tag`, `unquotedAttr` for an attribute value
that does not start with a quote, `unclosedAttr` for an attribute value
whose closing quote is missing. -/
inductive SsmlErr where
  | emptyTagName
  | missingGt (tag : String)
  | unquotedAttr
  | unclosedAttr
deriving DecidableEq, Repr

/-! The hand-written XML parser (`SimpleXmlParser`, `src/ssml.rs:367`).
The parser state is the fixed input character list plus a position; the
source walks bytes, the model walks scalar values, which agree on the
ASCII documents the engine recognizes.  The mutually recursive element
loop carries explicit fuel; each source loop iteration consumes at least
one input character, so the generous fuel supplied by `SsmlParser.parse`
is never exhausted on any input. -/

/-- `SimpleXmlParser::peek`. -/
def xmlPeek (input : List Char) (pos : ℕ) : Option Char :=
  (input.drop pos).head?

/-- `SimpleXmlParser::peek_str`. -/
def xmlPeekStr (input : List Char) (pos : ℕ) (s : String) : Bool :=
  s.data.isPrefixOf (input.drop pos)

/-- `SimpleXmlParser::skip_whitespace`: the new position. -/
def xmlSkipWs (input : List Char) (pos : ℕ) : ℕ :=
  pos + ((input.drop pos).takeWhile rustIsWs).length

/-- `SimpleXmlParser::skip_until`: position of the first occurrence of
`pat` at or after `pos`, or the input length. -/
def xmlSkipUntil (input : List Char) (pos : ℕ) (pat : String) : ℕ :=
  match findSub pat.data (input.drop pos) with
  | some idx => pos + idx
  | none => input.length

/-- The UTF-8 encoding of a character (the byte sequence Rust iterates
with `as_bytes`). -/
def utf8Encode (c : Char) : List ℕ :=
  let n := c.toNat
  if n < 128 then [n]
  else if n < 2048 then [192 + n / 64, 128 + n % 64]
  else if n < 65536 then [224 + n / 4096, 128 + n / 64 % 64, 128 + n % 64]
  else [240 + n / 262144, 128 + n / 4096 % 64, 128 + n / 64 % 64,
    128 + n % 64]

/-- The byte test of `SimpleXmlParser::parse_name` (`src/ssml.rs:560`):
the byte reinterpreted as a `char` (so a Latin-1 code point) satisfies
`is_alphanumeric` - ASCII alphanumerics plus the Latin-1 letters and
numeric signs `U+00AA U+00B2 U+00B3 U+00B5 U+00B9 U+00BA U+00BC U+00BD
U+00BE U+00C0-U+00D6 U+00D8-U+00F6 U+00F8-U+00FF` - or is `-`, `_` or
`:`. -/
def rustByteNameChar (b : ℕ) : Bool :=
  (48 ≤ b && b ≤ 57) || (65 ≤ b && b ≤ 90) || (97 ≤ b && b ≤ 122)
    || b = 170 || b = 178 || b = 179 || b = 181 || b = 185 || b = 186
    || b = 188 || b = 189 || b = 190
    || (192 ≤ b && b ≤ 214) || (216 ≤ b && b ≤ 246) || (248 ≤ b && b ≤ 255)
    || b = 45 || b = 95 || b = 58

/-- A character the byte walk of `parse_name` passes through whole: every
byte of its UTF-8 encoding satisfies `rustByteNameChar`.  On ASCII this
is exactly alphanumeric, `-`, `_`, `:`. -/
def xmlNameChar (c : Char) : Bool := (utf8Encode c).all rustByteNameChar

/-- DIVERGENCE FROM THE SOURCE, recorded under claim C5: the byte walk of
`parse_name` halts strictly inside the encoding of this character (its
first byte is accepted, a later byte is not), so the slice
`self.input[start..self.pos]` at `src/ssml.rs:568` falls on a non-boundary
and Rust PANICS (for example the tag `<é/>`: `é` is `0xC3 0xA9` and
`0xA9` is rejected).  The total model below stops at the previous
character boundary instead. -/
def nameSplitPanic (c : Char) : Bool :=
  rustByteNameChar ((utf8Encode c).headD 0)
    && ¬ (utf8Encode c).all rustByteNameChar

/-- DIVERGENCE FROM THE SOURCE, recorded under claim C5: a segment text
that passes both sentinel affix checks of `synthesize_segments` but is
shorter than 10 bytes - with both affixes that byte string can only be
`__break__` - makes the Rust slice `&text[8..text.len() - 2]`
(`src/synthesizer.rs:269`) run from 8 down to 7, so Rust PANICS.  The
total model of the segment loop below takes the empty string under
natural subtraction and skips the segment instead. -/
def breakSlicePanic (text : String) : Bool :=
  strStartsWith text "__break_" && strEndsWith text "__"
    && byteLen text < 10

/-- `SimpleXmlParser::parse_name`: the name and the new position.  The
source walks bytes; the model walks characters whose whole encoding is
accepted, which agrees with the source except on a `nameSplitPanic`
character, where the source panics and the model stops cleanly. -/
def xmlParseName (input : List Char) (pos : ℕ) : String × ℕ :=
  let run := (input.drop pos).takeWhile xmlNameChar
  (String.mk run, pos + run.length)

/-- `SimpleXmlParser::parse_text` (`src/ssml.rs:629`): raw text up to the
next `<`, entity-decoded and trimmed. -/
def xmlParseText (input : List Char) (pos : ℕ) : String × ℕ :=
  let run := (input.drop pos).takeWhile (fun c => ¬ c = '<')
  (decode_entities (rustTrim (String.mk run)), pos + run.length)

/-- `HashMap::insert` on the attribute map: replace or append. -/
def attrInsert (key value : String) :
    List (String × String) → List (String × String)
  | [] => [(key, value)]
  | (k, v) :: rest =>
    if k = key then (k, value) :: rest else (k, v) :: attrInsert key value rest

/-- `SimpleXmlParser::parse_attribute_value` (`src/ssml.rs:605`). -/
def xmlParseAttrValue (input : List Char) (pos : ℕ) :
    Except SsmlErr (String × ℕ) :=
  match xmlPeek input pos with
  | some q =>
    if q = Char.ofNat 34 || q = apostrophe then
      let start := pos + 1
      match findSub [q] (input.drop start) with
      | some i =>
        .ok (decode_entities (String.mk ((input.drop start).take i)), start + i + 1)
      | none => .error .unclosedAttr
    else .error .unquotedAttr
  | none => .error .unquotedAttr

/-- The attribute loop of `SimpleXmlParser::parse_attributes`
(`src/ssml.rs:571`), with fuel for the source `loop`. -/
def xmlParseAttrs (input : List Char) :
    ℕ → ℕ → List (String × String) → Except SsmlErr (List (String × String) × ℕ)
  | 0, pos, attrs => .ok (attrs, pos)
  | fuel + 1, pos, attrs =>
    let pos := xmlSkipWs input pos
    if pos ≥ input.length then .ok (attrs, pos)
    else
      match xmlPeek input pos with
      | some c =>
        if c = '>' || c = '/' then .ok (attrs, pos)
        else
          let (name, pos) := xmlParseName input pos
          if name = "" then .ok (attrs, pos)
          else
            let pos := xmlSkipWs input pos
            if xmlPeek input pos = some '=' then
              let pos := xmlSkipWs input (pos + 1)
              match xmlParseAttrValue input pos with
              | .ok (value, pos) =>
                xmlParseAttrs input fuel pos
                  (attrInsert (String.mk (name.data.map rustToLower)) value attrs)
              | .error e => .error e
            else xmlParseAttrs input fuel pos attrs
      | none => .ok (attrs, pos)

/-- `SimpleXmlParser::skip_closing_tag` (`src/ssml.rs:657`). -/
def xmlSkipClosingTag (input : List Char) (pos : ℕ) (tag_name : String) : ℕ :=
  let pos := xmlSkipWs input pos
  if xmlPeekStr input pos "</" then
    let pos := pos + 2
    let (name, pos) := xmlParseName input pos
    if String.mk (name.data.map rustToLower)
        = String.mk (tag_name.data.map rustToLower) then
      let pos := xmlSkipWs input pos
      if xmlPeek input pos = some '>' then pos + 1 else pos
    else pos
  else pos

/-- `SimpleXmlParser::extract_text` (`src/ssml.rs:548`). -/
def xmlExtractText (elements : List SsmlElement) : String :=
  elements.foldl (fun acc e =>
    match e with
    | .Text t => acc ++ t
    | _ => acc) ""

/-- `SimpleXmlParser::create_element` (`src/ssml.rs:461`): build the
element from tag name, attributes and children.  The source wraps this in
`Result` but every arm returns `Ok`. -/
def createElement (ops : FOps) (tag_name : String)
    (attrs : List (String × String)) (children : List SsmlElement) :
    SsmlElement :=
  let tag := String.mk (tag_name.data.map rustToLower)
  if tag = "speak" then
    match children with
    | [] => .Text ""
    | [c] => c
    | _ => .Paragraph children
  else if tag = "break" then
    let spec₀ := BreakSpec.default
    let spec₁ := match attrs.lookup "time" with
      | some t => { spec₀ with time_ms := parse_duration t }
      | none => spec₀
    let spec₂ := match attrs.lookup "strength" with
      | some st => { spec₁ with strength := BreakStrength.parse st }
      | none => spec₁
    .Break spec₂
  else if tag = "prosody" then
    let c₀ := ProsodyConfig.default
    let c₁ := match attrs.lookup "rate" with
      | some r => { c₀ with rate_multiplier := parse_rate r }
      | none => c₀
    let c₂ := match attrs.lookup "pitch" with
      | some p => { c₁ with pitch_multiplier := parse_pitch ops p }
      | none => c₁
    let c₃ := match attrs.lookup "volume" with
      | some v => { c₂ with volume_multiplier := parse_volume ops v }
      | none => c₂
    let c₄ := match attrs.lookup "contour" with
      | some ct => { c₃ with contour := parse_contour ct }
      | none => c₃
    .Prosody children c₄
  else if tag = "emphasis" then
    let level := (attrs.lookup "level").map EmphasisLevel.parse
      |>.getD .Moderate
    .Emphasis children level
  else if tag = "say-as" then
    let interpret_as := (attrs.lookup "interpret-as").getD ""
    .SayAs (xmlExtractText children) interpret_as
  else if tag = "sub" then
    .Sub ((attrs.lookup "alias").getD "")
  else if tag = "voice" then
    .Voice children (attrs.lookup "name")
  else if tag = "p" || tag = "paragraph" then .Paragraph children
  else if tag = "s" || tag = "sentence" then .Sentence children
  else
    match children with
    | [] => .Text ""
    | [c] => c
    | _ => .Paragraph children

mutual

/-- The element-list loop of `SimpleXmlParser::parse` (`src/ssml.rs:377`). -/
def xmlParseElems (ops : FOps) (input : List Char) :
    ℕ → ℕ → Except SsmlErr (List SsmlElement × ℕ)
  | 0, pos => .ok ([], pos)
  | fuel + 1, pos =>
    let pos := xmlSkipWs input pos
    if pos ≥ input.length then .ok ([], pos)
    else if xmlPeek input pos = some '<' then
      if xmlPeekStr input pos "<?" then
        let pos := xmlSkipUntil input pos "?>" + 2
        xmlParseElems ops input fuel pos
      else if xmlPeekStr input pos "<!--" then
        let pos := xmlSkipUntil input pos "-->" + 3
        xmlParseElems ops input fuel pos
      else if xmlPeekStr input pos "</" then .ok ([], pos)
      else
        match xmlParseElement ops input fuel pos with
        | .error e => .error e
        | .ok (elem, pos) =>
          match xmlParseElems ops input fuel pos with
          | .error e => .error e
          | .ok (rest, pos) => .ok (elem :: rest, pos)
    else
      let (text, pos) := xmlParseText input pos
      match xmlParseElems ops input fuel pos with
      | .error e => .error e
      | .ok (rest, pos') => .ok (if text = "" then rest else .Text text :: rest, pos')

/-- `SimpleXmlParser::parse_element` (`src/ssml.rs:417`). -/
def xmlParseElement (ops : FOps) (input : List Char) :
    ℕ → ℕ → Except SsmlErr (SsmlElement × ℕ)
  | 0, pos => .ok (.Text "", pos)
  | fuel + 1, pos =>
    let pos := pos + 1
    let pos := xmlSkipWs input pos
    let (tag_name, pos) := xmlParseName input pos
    if tag_name = "" then .error .emptyTagName
    else
      match xmlParseAttrs input (input.length + 1) pos [] with
      | .error e => .error e
      | .ok (attrs, pos) =>
        let pos := xmlSkipWs input pos
        let self_closing := xmlPeek input pos = some '/'
        let pos := if self_closing then pos + 1 else pos
        if ¬ (xmlPeek input pos = some '>') then .error (.missingGt tag_name)
        else
          let pos := pos + 1
          if self_closing then
            .ok (createElement ops tag_name attrs [], pos)
          else
            match xmlParseElems ops input fuel pos with
            | .error e => .error e
            | .ok (children, pos) =>
              let pos := xmlSkipClosingTag input pos tag_name
              .ok (createElement ops tag_name attrs children, pos)

end

/-- `SsmlParser::parse` (`src/ssml.rs:340`): plain text is wrapped as a
single `Text` element, markup goes through `SimpleXmlParser`. -/
def SsmlParser.parse (ops : FOps) (input : String) :
    Except SsmlErr SsmlDocument :=
  let trimmed := rustTrim input
  if ¬ strStartsWith trimmed "<" then
    .ok ⟨[.Text input]⟩
  else
    match xmlParseElems ops trimmed.data (4 * trimmed.data.length + 4) 0 with
    | .error e => .error e
    | .ok (elements, _) => .ok ⟨elements⟩

mutual

/-- `SsmlDocument::collect_segments` (`src/ssml.rs:241`), list case. -/
def collectSegments (elements : List SsmlElement)
    (parent_prosody : ProsodyConfig) : List SynthesisSegment :=
  match elements with
  | [] => []
  | e :: rest =>
    collectSegment e parent_prosody ++ collectSegments rest parent_prosody

/-- `SsmlDocument::collect_segments`, element case.  The Break arm pushes
a segment with empty text and default prosody at zero volume, then
overwrites the text with the `__break_<ms>__` sentinel. -/
def collectSegment (e : SsmlElement) (parent_prosody : ProsodyConfig) :
    List SynthesisSegment :=
  match e with
  | .Text text =>
    if rustTrim text = "" then [] else [⟨text, parent_prosody⟩]
  | .Break spec =>
    let duration := if 0 < spec.time_ms then spec.time_ms else spec.strength.to_ms
    [⟨breakSentinel duration, ProsodyConfig.default.with_volume 0⟩]
  | .Prosody children config =>
    let merged : ProsodyConfig :=
      { pitch_multiplier := parent_prosody.pitch_multiplier * config.pitch_multiplier
      , rate_multiplier := parent_prosody.rate_multiplier * config.rate_multiplier
      , volume_multiplier := parent_prosody.volume_multiplier * config.volume_multiplier
      , contour := if ¬ (config.contour = .Flat) then config.contour
                   else parent_prosody.contour
      , emphasis := max config.emphasis parent_prosody.emphasis }
    collectSegments children merged
  | .Emphasis children level =>
    let emphasis_prosody : ProsodyConfig :=
      { pitch_multiplier := parent_prosody.pitch_multiplier
      , rate_multiplier := parent_prosody.rate_multiplier
      , volume_multiplier := parent_prosody.volume_multiplier * level.to_volume_multiplier
      , contour := parent_prosody.contour
      , emphasis := level.to_emphasis_value }
    collectSegments children emphasis_prosody
  | .SayAs text _ => [⟨text, parent_prosody⟩]
  | .Sub aliasText => [⟨aliasText, parent_prosody⟩]
  | .Voice children _ => collectSegments children parent_prosody
  | .Paragraph children => collectSegments children parent_prosody
  | .Sentence children => collectSegments children parent_prosody

end

/-- `SsmlDocument::to_synthesis_segments` (`src/ssml.rs:234`). -/
def SsmlDocument.to_synthesis_segments (doc : SsmlDocument) :
    List SynthesisSegment :=
  collectSegments doc.elements ProsodyConfig.default

/-! Error taxonomy (`src/error.rs`) and the synthesizer facade
(`src/synthesizer.rs`). -/

/-- `SynthesizerError` (`src/error.rs`).  The `SynthesisError` variant
carries a message string in the source; the modeled code paths construct
it only from the four parser syntax errors, so the payload here is the
structural `SsmlErr` (whose rendering to the source message is
injective).  The remaining variants are never constructed by the modeled
code. -/
inductive SynthesizerError where
  | InitializationError (msg : String)
  | VoiceError (msg : String)
  | SynthesisError (err : SsmlErr)
  | UnsupportedLanguage (code : String)
  | PhonemeError (msg : String)
  | InvalidPhoneme (msg : String)
  | SystemError (msg : String)
  | AudioError (msg : String)
deriving DecidableEq, Repr

/-- Decidable equality for `Except` results. -/
instance {ε α : Type} [DecidableEq ε] [DecidableEq α] :
    DecidableEq (Except ε α) := fun x y =>
  match x, y with
  | .error a, .error b =>
    if h : a = b then isTrue (by rw [h])
    else isFalse (by intro hh; cases hh; exact h rfl)
  | .ok a, .ok b =>
    if h : a = b then isTrue (by rw [h])
    else isFalse (by intro hh; cases hh; exact h rfl)
  | .error _, .ok _ => isFalse (by intro hh; cases hh)
  | .ok _, .error _ => isFalse (by intro hh; cases hh)

/-- `text_to_ipa` (`src/g2p.rs:351`): language dispatch (note: only the
four exact codes, unlike `Language::from_code`), conversion, and mapping
of each token through the inventory IPA field. -/
def text_to_ipa (text language : String) : Except SynthesizerError String :=
  if language = "en" || language = "english" then
    .ok (ipaRender G2PConverter.english text)
  else if language = "es" || language = "spanish" then
    .ok (ipaRender G2PConverter.spanish text)
  else .error (.UnsupportedLanguage language)
where
  /-- Token-wise IPA rendering (`src/g2p.rs:360`). -/
  ipaRender (converter : G2PConverter) (text : String) : String :=
    let phonemes := converter.convert text
    let inventory := converter.inventory
    String.join ((splitWs phonemes).map (fun p =>
      if p = "_" then " "
      else match inventory.get p with
        | some ph => ph.ipa
        | none => p))

/-- Phoneme output formats (`PhonemeFormat`, `src/synthesizer.rs:17`). -/
inductive PhonemeFormat where
  | Ipa | Ascii
deriving DecidableEq, Repr

/-- `PhonemeResult` (`src/synthesizer.rs:28`). -/
structure PhonemeResult where
  text : String
  phonemes : String
  format : PhonemeFormat
  language : Language
deriving DecidableEq, Repr

/-- The main synthesizer (`Synthesizer`, `src/synthesizer.rs:57`). -/
structure Synthesizer where
  config : VoiceConfig
  g2p_en : G2PConverter
  g2p_es : G2PConverter
  inventory_en : PhonemeInventory
  inventory_es : PhonemeInventory

/-- `Synthesizer::with_config` (`src/synthesizer.rs:74`): fresh per-language
converters and inventories. -/
def Synthesizer.with_config (config : VoiceConfig) : Synthesizer :=
  ⟨config, G2PConverter.english, G2PConverter.spanish,
    PhonemeInventory.english, PhonemeInventory.spanish⟩

/-- `Synthesizer::new` (default English voice). -/
def Synthesizer.new : Synthesizer := Synthesizer.with_config VoiceConfig.default

/-- `Synthesizer::get_g2p`. -/
def Synthesizer.get_g2p (s : Synthesizer) : G2PConverter :=
  match s.config.language with
  | .English => s.g2p_en
  | .Spanish => s.g2p_es

/-- `Synthesizer::get_inventory`. -/
def Synthesizer.get_inventory (s : Synthesizer) : PhonemeInventory :=
  match s.config.language with
  | .English => s.inventory_en
  | .Spanish => s.inventory_es

/-- `Synthesizer::create_formant_synthesizer` (`src/synthesizer.rs:132`). -/
def Synthesizer.create_formant_synthesizer (s : Synthesizer) (ops : FOps) :
    FormantSynthesizer :=
  FormantSynthesizer.new ops
    { pitch_hz := s.config.effective_pitch_hz
    , rate := s.config.rate_multiplier
    , volume := min s.config.volume_level 1
    , sample_rate := SAMPLE_RATE }

/-- `Synthesizer::synthesize` (`src/synthesizer.rs:153`).  The source
signature is `Result<AudioOutput>` but no path errs (`convert` never
fails), so the model returns the audio directly. -/
def Synthesizer.synthesize (s : Synthesizer) (ops : FOps) (text : String) :
    AudioOutput :=
  let phonemes := (s.get_g2p).convert text
  if phonemes = "" then ⟨[], SAMPLE_RATE, 1⟩
  else
    let formant_synth := s.create_formant_synthesizer ops
    let (float_samples, _) :=
      formant_synth.synthesize_phonemes ops phonemes s.get_inventory
    ⟨to_pcm16 float_samples, SAMPLE_RATE, 1⟩

/-- `Synthesizer::create_formant_synthesizer_with_prosody`
(`src/synthesizer.rs:211`). -/
def Synthesizer.create_formant_synthesizer_with_prosody (s : Synthesizer)
    (ops : FOps) (prosody : ProsodyConfig) : FormantSynthesizer :=
  FormantSynthesizer.new ops
    { pitch_hz := s.config.effective_pitch_hz * prosody.pitch_multiplier
    , rate := s.config.rate_multiplier * prosody.rate_multiplier
    , volume := min (s.config.volume_level * prosody.volume_multiplier) 1
    , sample_rate := SAMPLE_RATE }

/-- The segment loop of `Synthesizer::synthesize_with_prosody`
(`src/synthesizer.rs:196`). -/
def synthesizeProsodySegments (s : Synthesizer) (ops : FOps) :
    List PhraseSegment → List ℤ
  | [] => []
  | segment :: rest =>
    let phonemes := (s.get_g2p).convert segment.text
    if phonemes = "" then synthesizeProsodySegments s ops rest
    else
      let formant_synth :=
        s.create_formant_synthesizer_with_prosody ops segment.prosody
      let (float_samples, _) :=
        formant_synth.synthesize_phonemes ops phonemes s.get_inventory
      to_pcm16 float_samples ++ synthesizeProsodySegments s ops rest

/-- `Synthesizer::synthesize_with_prosody` (`src/synthesizer.rs:185`).
Again the source `Result` never errs. -/
def Synthesizer.synthesize_with_prosody (s : Synthesizer) (ops : FOps)
    (text : String) : AudioOutput :=
  let segments := PhraseAnalyzer.analyze text
  if segments = [] then s.synthesize ops text
  else ⟨synthesizeProsodySegments s ops segments, SAMPLE_RATE, 1⟩

/-- The segment loop of `Synthesizer::synthesize_segments`
(`src/synthesizer.rs:266`): break sentinels become zero runs, blank
segments are skipped, the rest are converted and synthesized with their
prosody.  The slice `&text[8..len - 2]` is modelled with natural
subtraction, which agrees with the source for every well-formed sentinel
(byte length at least 10) but silently skips a `breakSlicePanic` segment
(text exactly `__break__`) where Rust panics; that divergence is recorded
under claim C5. -/
def synthesizeSegmentsLoop (s : Synthesizer) (ops : FOps) :
    List SynthesisSegment → List ℤ
  | [] => []
  | segment :: rest =>
    if strStartsWith segment.text "__break_" && strEndsWith segment.text "__" then
      let duration_str := String.mk
        ((segment.text.data.drop 8).take (segment.text.data.length - 10))
      (match rustParseU32 duration_str with
       | some duration_ms =>
         List.replicate
           (ratToNat ((duration_ms : ℚ) / 1000 * (SAMPLE_RATE : ℚ))) (0 : ℤ)
       | none => [])
        ++ synthesizeSegmentsLoop s ops rest
    else if rustTrim segment.text = "" then synthesizeSegmentsLoop s ops rest
    else
      let phonemes := (s.get_g2p).convert segment.text
      if phonemes = "" then synthesizeSegmentsLoop s ops rest
      else
        let formant_synth :=
          s.create_formant_synthesizer_with_prosody ops segment.prosody
        let (float_samples, _) :=
          formant_synth.synthesize_phonemes ops phonemes s.get_inventory
        to_pcm16 float_samples ++ synthesizeSegmentsLoop s ops rest

/-- `Synthesizer::synthesize_segments` (`src/synthesizer.rs:257`). -/
def Synthesizer.synthesize_segments (s : Synthesizer) (ops : FOps)
    (segments : List SynthesisSegment) : AudioOutput :=
  ⟨synthesizeSegmentsLoop s ops segments, SAMPLE_RATE, 1⟩

/-- `Synthesizer::synthesize_ssml` (`src/synthesizer.rs:249`): parse,
flatten, synthesize; only the parser can fail. -/
def Synthesizer.synthesize_ssml (s : Synthesizer) (ops : FOps)
    (ssml : String) : Except SynthesizerError AudioOutput :=
  match SsmlParser.parse ops ssml with
  | .error e => .error (.SynthesisError e)
  | .ok doc => .ok (s.synthesize_segments ops doc.to_synthesis_segments)

/-- `Synthesizer::text_to_phonemes` (`src/synthesizer.rs:307`). -/
def Synthesizer.text_to_phonemes (s : Synthesizer) (text : String)
    (format : PhonemeFormat) : Except SynthesizerError PhonemeResult :=
  match format with
  | .Ascii => .ok ⟨text, (s.get_g2p).convert text, format, s.config.language⟩
  | .Ipa =>
    match text_to_ipa text s.config.language.code with
    | .error e => .error e
    | .ok phonemes => .ok ⟨text, phonemes, format, s.config.language⟩

/-- `espeak_initialize` (`src/synthesizer.rs:381`): always the sample
rate. -/
def espeak_initialize : Except SynthesizerError ℤ := .ok (SAMPLE_RATE : ℤ)

/-- `espeak_set_voice_by_name` (`src/synthesizer.rs:395`). -/
def espeak_set_voice_by_name (name : String) : Except SynthesizerError Unit :=
  if (Language.from_code name).isSome then .ok ()
  else .error (.UnsupportedLanguage name)

/-- `espeak_synth` (`src/synthesizer.rs:413`). -/
def espeak_synth (ops : FOps) (text language : String) :
    Except SynthesizerError (List ℤ) :=
  match Language.from_code language with
  | none => .error (.UnsupportedLanguage language)
  | some lang =>
    .ok ((Synthesizer.with_config (VoiceConfig.new lang)).synthesize ops text).samples

/-- `espeak_text_to_phonemes` (`src/synthesizer.rs:435`). -/
def espeak_text_to_phonemes (text language : String) (ipa : Bool) :
    Except SynthesizerError String :=
  match Language.from_code language with
  | none => .error (.UnsupportedLanguage language)
  | some lang =>
    let format := if ipa then PhonemeFormat.Ipa else PhonemeFormat.Ascii
    match (Synthesizer.with_config (VoiceConfig.new lang)).text_to_phonemes
        text format with
    | .error e => .error e
    | .ok r => .ok r.phonemes

/-! Streaming synthesis, from `src/streaming.rs`. -/

/-- `DEFAULT_CHUNK_SIZE` (`src/streaming.rs:14`). -/
def DEFAULT_CHUNK_SIZE : ℕ := 1024

/-- An audio chunk (`AudioChunk`, `src/streaming.rs:18`). -/
structure AudioChunk where
  samples : List ℤ
  sample_rate : ℕ
  is_final : Bool
  progress : ℚ
deriving DecidableEq, Repr

/-- Streaming configuration (`StreamingConfig`, `src/streaming.rs:56`). -/
structure StreamingConfig where
  chunk_size : ℕ
  voice : VoiceConfig
  enable_prosody : Bool
deriving DecidableEq, Repr

/-- `StreamingConfig::default` (`src/streaming.rs:66`). -/
def StreamingConfig.default : StreamingConfig :=
  ⟨DEFAULT_CHUNK_SIZE, VoiceConfig.default, true⟩

/-- `StreamingConfig::with_chunk_size` (minimum 256 samples). -/
def StreamingConfig.with_chunk_size (c : StreamingConfig) (size : ℕ) :
    StreamingConfig :=
  { c with chunk_size := max size 256 }

/-- `StreamingConfig::with_voice`. -/
def StreamingConfig.with_voice (c : StreamingConfig) (voice : VoiceConfig) :
    StreamingConfig :=
  { c with voice := voice }

/-- `StreamingConfig::with_prosody`. -/
def StreamingConfig.with_prosody (c : StreamingConfig) (enable : Bool) :
    StreamingConfig :=
  { c with enable_prosody := enable }

/-- The audio stream iterator state (`AudioStream`, `src/streaming.rs:225`). -/
structure AudioStream where
  phoneme_tokens : List String
  current_index : ℕ
  inventory : PhonemeInventory
  formant_synth : FormantSynthesizer
  chunk_size : ℕ
  prosody : ProsodyConfig
  buffer : List ℚ
  is_complete : Bool

/-- `AudioStream::progress` (`src/streaming.rs:278`). -/
def AudioStream.progress (st : AudioStream) : ℚ :=
  if st.phoneme_tokens = [] then 1
  else (st.current_index : ℚ) / (st.phoneme_tokens.length : ℚ)

/-- `AudioStream::synthesize_next_phoneme` (`src/streaming.rs:287`). -/
def AudioStream.synthesize_next_phoneme (st : AudioStream) (ops : FOps) :
    AudioStream :=
  if h : st.current_index < st.phoneme_tokens.length then
    let phoneme_sym := st.phoneme_tokens.get ⟨st.current_index, h⟩
    if phoneme_sym = "_" then
      let pause := ratToNat ((1/10) * (SAMPLE_RATE : ℚ) / st.formant_synth.config.rate)
      { st with buffer := st.buffer ++ List.replicate pause 0
              , current_index := st.current_index + 1 }
    else
      match st.inventory.get phoneme_sym with
      | some p =>
        let position := st.progress
        let pitch_mod := st.prosody.pitch_at_position position
        let duration := scaledDuration st.formant_synth.config p.duration_ms
        let res :=
          st.formant_synth.synthesize_phoneme_with_pitch_mod ops p duration pitch_mod
        { st with buffer := st.buffer ++ res.1
                , formant_synth := res.2
                , current_index := st.current_index + 1 }
      | none => { st with current_index := st.current_index + 1 }
  else { st with is_complete := true }

/-- `AudioStream::extract_chunk` (`src/streaming.rs:320`): drain up to
`chunk_size` samples, convert them to PCM16; the chunk is final when the
stream is complete and the buffer drained empty. -/
def AudioStream.extract_chunk (st : AudioStream) (is_final : Bool) :
    AudioChunk × AudioStream :=
  let samples_to_take := min st.chunk_size st.buffer.length
  let float_samples := st.buffer.take samples_to_take
  let rest := st.buffer.drop samples_to_take
  (⟨to_pcm16 float_samples, SAMPLE_RATE, is_final && rest.isEmpty, st.progress⟩,
    { st with buffer := rest })

/-- Termination measure for the buffer fill loop. -/
def fillMeasure (st : AudioStream) : ℕ :=
  if st.is_complete then 0
  else st.phoneme_tokens.length + 1
    - min st.current_index st.phoneme_tokens.length

/-- The buffer-fill loop of `Iterator::next` (`src/streaming.rs:342`),
with fuel: synthesize phonemes until the buffer holds a chunk or
synthesis is complete.  Every iteration decreases `fillMeasure`
(`fillMeasure_next_lt`), so the fuel chosen by `AudioStream.fill` always
suffices. -/
def AudioStream.fillFuel (ops : FOps) : ℕ → AudioStream → AudioStream
  | 0, st => st
  | fuel + 1, st =>
    if st.buffer.length < st.chunk_size && st.is_complete = false then
      AudioStream.fillFuel ops fuel (st.synthesize_next_phoneme ops)
    else st

/-- The buffer-fill loop of `Iterator::next` (`src/streaming.rs:342`). -/
def AudioStream.fill (st : AudioStream) (ops : FOps) : AudioStream :=
  AudioStream.fillFuel ops (fillMeasure st) st

/-- `Iterator::next` for `AudioStream` (`src/streaming.rs:340`). -/
def AudioStream.next (st : AudioStream) (ops : FOps) :
    Option (AudioChunk × AudioStream) :=
  let st := st.fill ops
  if st.buffer.isEmpty then none
  else some (st.extract_chunk st.is_complete)

/-- The floats still to be produced from the remaining phoneme tokens,
threading the synthesizer state exactly as `synthesize_next_phoneme`
does.  Fuel `tokens.length - index` always suffices. -/
def remFloatsGo (ops : FOps) (inv : PhonemeInventory) (prosody : ProsodyConfig)
    (tokens : List String) :
    ℕ → FormantSynthesizer → ℕ → List ℚ
  | 0, _, _ => []
  | fuel + 1, fs, index =>
    if h : index < tokens.length then
      let tok := tokens.get ⟨index, h⟩
      if tok = "_" then
        let pause := ratToNat ((1/10) * (SAMPLE_RATE : ℚ) / fs.config.rate)
        List.replicate pause 0
          ++ remFloatsGo ops inv prosody tokens fuel fs (index + 1)
      else
        match inv.get tok with
        | some p =>
          let position := if tokens = [] then (1 : ℚ)
            else (index : ℚ) / (tokens.length : ℚ)
          let pitch_mod := prosody.pitch_at_position position
          let duration := scaledDuration fs.config p.duration_ms
          let res :=
            fs.synthesize_phoneme_with_pitch_mod ops p duration pitch_mod
          res.1 ++ remFloatsGo ops inv prosody tokens fuel res.2 (index + 1)
        | none => remFloatsGo ops inv prosody tokens fuel fs (index + 1)
    else []

/-- The floats an `AudioStream` will still synthesize. -/
def remFloats (ops : FOps) (st : AudioStream) : List ℚ :=
  if st.is_complete then []
  else remFloatsGo ops st.inventory st.prosody st.phoneme_tokens
    (st.phoneme_tokens.length - st.current_index)
    st.formant_synth st.current_index

/-- The chunk sequence of the stream iterator, with fuel; every `next`
call that yields a chunk strictly shrinks `buffer ++ remFloats`, so the
fuel chosen in `streamChunks` is always sufficient. -/
def streamChunksFuel (ops : FOps) : ℕ → AudioStream → List AudioChunk
  | 0, _ => []
  | fuel + 1, st =>
    match st.next ops with
    | none => []
    | some (c, st') => c :: streamChunksFuel ops fuel st'

/-- All chunks the stream yields (Rust: repeatedly calling
`Iterator::next` until `None`). -/
def streamChunks (ops : FOps) (st : AudioStream) : List AudioChunk :=
  streamChunksFuel ops (st.buffer.length + (remFloats ops st).length + 1) st

/-- The streaming synthesizer (`StreamingSynthesizer`,
`src/streaming.rs:105`). -/
structure StreamingSynthesizer where
  config : StreamingConfig
  g2p_en : G2PConverter
  g2p_es : G2PConverter
  inventory_en : PhonemeInventory
  inventory_es : PhonemeInventory

/-- `StreamingSynthesizer::with_config` (`src/streaming.rs:122`). -/
def StreamingSynthesizer.with_config (config : StreamingConfig) :
    StreamingSynthesizer :=
  ⟨config, G2PConverter.english, G2PConverter.spanish,
    PhonemeInventory.english, PhonemeInventory.spanish⟩

/-- `StreamingSynthesizer::new`. -/
def StreamingSynthesizer.new : StreamingSynthesizer :=
  StreamingSynthesizer.with_config StreamingConfig.default

/-- `StreamingSynthesizer::get_g2p`. -/
def StreamingSynthesizer.get_g2p (s : StreamingSynthesizer) : G2PConverter :=
  match s.config.voice.language with
  | .English => s.g2p_en
  | .Spanish => s.g2p_es

/-- `StreamingSynthesizer::get_inventory`. -/
def StreamingSynthesizer.get_inventory (s : StreamingSynthesizer) :
    PhonemeInventory :=
  match s.config.voice.language with
  | .English => s.inventory_en
  | .Spanish => s.inventory_es

/-- `StreamingSynthesizer::synthesize_stream` (`src/streaming.rs:155`).
No path errs (`convert` never fails), so the stream is returned
directly. -/
def StreamingSynthesizer.synthesize_stream (s : StreamingSynthesizer)
    (ops : FOps) (text : String) : AudioStream :=
  let phonemes := (s.get_g2p).convert text
  let inventory := s.get_inventory
  let prosody :=
    if s.config.enable_prosody then
      match PhraseAnalyzer.analyze text with
      | [] => ProsodyConfig.default
      | seg :: _ => seg.prosody
    else ProsodyConfig.default
  let synth_config : SynthesisConfig :=
    { pitch_hz := s.config.voice.effective_pitch_hz * prosody.pitch_multiplier
    , rate := s.config.voice.rate_multiplier * prosody.rate_multiplier
    , volume := min s.config.voice.volume_level 1 * prosody.volume_multiplier
    , sample_rate := SAMPLE_RATE }
  { phoneme_tokens := splitWs phonemes
  , current_index := 0
  , inventory := inventory
  , formant_synth := FormantSynthesizer.new ops synth_config
  , chunk_size := s.config.chunk_size
  , prosody := prosody
  , buffer := []
  , is_complete := false }

/-- The vowel-like categories, whose synthesis needs a formant block. -/
def vowelLike (c : PhonemeCategory) : Bool :=
  match c with
  | .Vowel | .Diphthong | .Nasal | .Lateral | .Rhotic | .Approximant => true
  | .Plosive | .Fricative | .Affricate | .Silence => false

/-- A phoneme is good when a vowel-like category carries formants. -/
def goodPhoneme (p : Phoneme) : Bool :=
  ¬ vowelLike p.category || p.formants.isSome

/-- Every phoneme of the inventory is good. -/
def goodInventory (inv : PhonemeInventory) : Bool :=
  inv.phonemes.all (fun kv => goodPhoneme kv.2)

/-- The number of samples a single phoneme-string token contributes in
`synthesize_phonemes` (`src/formant.rs:385`): `_` yields the pause run,
an inventory symbol yields its double-rate-scaled duration, anything else
is dropped. -/
def tokenContribution (cfg : SynthesisConfig) (inv : PhonemeInventory)
    (tok : String) : ℕ :=
  if tok = "_" then pauseSamples cfg
  else
    match inv.get tok with
    | some p =>
      ratToNat ((scaledDuration cfg p.duration_ms : ℚ) / 1000
        * (cfg.sample_rate : ℚ) / cfg.rate)
    | none => 0

/-- A rule bucket is pairwise ordered under `ruleLe`: every rule is
`ruleLe`-above all later rules, i.e. priorities descend and ties are
broken by longer (byte-length) pattern first. -/
def bucketSorted : List G2PRule → Bool
  | [] => true
  | a :: rest => rest.all (fun b => ruleLe a b) && bucketSorted rest

/-- The first rule of a bucket has the maximum priority in the bucket. -/
def bucketHeadMax : List G2PRule → Bool
  | [] => true
  | a :: rest => rest.all (fun b => b.priority ≤ a.priority)

/-- Every first-character bucket of the converter satisfies `p`. -/
def allBuckets (c : G2PConverter) (p : List G2PRule → Bool) : Bool :=
  c.rules.all (fun kv => p kv.2)

/-- SPEC-SIDE definition, modeled on the words of claim C8 and not on any
source function: the first maximal run of alphabetic characters of the
lowercased trimmed text. The claim asks whether this word is one of the
interrogative words. -/
def firstAlphabeticWord (text : String) : String :=
  String.mk
    ((((rustTrim text).data.map rustToLower).dropWhile
      (fun c => ¬ rustIsAlphabetic c)).takeWhile rustIsAlphabetic)

/-- The alphabetic prefix of the question text inspected by
`SentenceType::detect` (`src/prosody.rs:33`: lowercase, then the slice
from the first alphabetic character on). -/
def questionContent (text : String) : List Char :=
  ((rustTrim text).data.map rustToLower).dropWhile (fun c => ¬ rustIsAlphabetic c)

/-- SPEC-SIDE definition, modeled on the words of claim C5 and not on any
source function: the three SSML error kinds enumerated by the claim
(empty tag name, unclosed attribute value, missing closing angle
bracket). -/
def claimedSsmlErr : SsmlErr → Bool
  | .emptyTagName => true
  | .missingGt _ => true
  | .unclosedAttr => true
  | .unquotedAttr => false

/-- Closed form of the freshly constructed audio stream: the record built
by `synthesize_stream` with its `let`-bindings expanded. -/
def streamProsody (s : StreamingSynthesizer) (text : String) : ProsodyConfig :=
  if s.config.enable_prosody then
    match PhraseAnalyzer.analyze text with
    | [] => ProsodyConfig.default
    | seg :: _ => seg.prosody
  else ProsodyConfig.default

/-- `synthesize_next_phoneme` decreases the fill measure while the stream
is not complete. -/
theorem fillMeasure_next_lt (st : AudioStream) (ops : FOps)
    (hc : st.is_complete = false) :
    fillMeasure (st.synthesize_next_phoneme ops) < fillMeasure st := by
  unfold AudioStream.synthesize_next_phoneme
  by_cases h : st.current_index < st.phoneme_tokens.length
  · simp only [h, dif_pos]
    have hmin : min st.current_index st.phoneme_tokens.length = st.current_index :=
      min_eq_left (le_of_lt h)
    have hlt : st.phoneme_tokens.length + 1
        - min (st.current_index + 1) st.phoneme_tokens.length
        < st.phoneme_tokens.length + 1
        - min st.current_index st.phoneme_tokens.length := by
      rw [hmin]
      have h1 : st.current_index < min (st.current_index + 1) st.phoneme_tokens.length := by
        exact lt_min (Nat.lt_succ_self _) h
      have h2 : min (st.current_index + 1) st.phoneme_tokens.length
          ≤ st.phoneme_tokens.length := min_le_right _ _
      omega
    split
    · simpa [fillMeasure, hc] using hlt
    · split
      · simpa [fillMeasure, hc] using hlt
      · simpa [fillMeasure, hc] using hlt
  · simp only [h, dif_neg, not_false_iff]
    simp [fillMeasure, hc]

/-! Helper lemmas: output lengths and state bookkeeping of the DSP
loops. -/

/-- `iterSamples` emits exactly one sample per iteration. -/
theorem iterSamples_length (step : ℕ → FormantSynthesizer → ℚ × FormantSynthesizer) :
    ∀ (n i : ℕ) (st : FormantSynthesizer),
      ((iterSamples step i n st).1).length = n := by
  intro n
  induction n with
  | zero => intro i st; rfl
  | succ n ih =>
    intro i st
    simp only [iterSamples]
    simp [ih]

/-- `iterSamples` preserves the configuration whenever the step does. -/
theorem iterSamples_config (step : ℕ → FormantSynthesizer → ℚ × FormantSynthesizer)
    (hstep : ∀ i st, ((step i st).2).config = st.config) :
    ∀ (n i : ℕ) (st : FormantSynthesizer),
      ((iterSamples step i n st).2).config = st.config := by
  intro n
  induction n with
  | zero => intro i st; rfl
  | succ n ih =>
    intro i st
    simp only [iterSamples]
    rw [ih, hstep]

/-- The glottal pulse leaves the configuration unchanged. -/
theorem glottal_pulse_config (s : FormantSynthesizer) (f0 : ℚ) :
    ((s.glottal_pulse f0).2).config = s.config := by
  simp only [FormantSynthesizer.glottal_pulse]

/-- The noise generator leaves the configuration unchanged. -/
theorem noise_config (s : FormantSynthesizer) :
    ((s.noise).2).config = s.config := by
  simp only [FormantSynthesizer.noise]

/-- `vowelStep` preserves the configuration. -/
theorem vowelStep_config (n i : ℕ) (st : FormantSynthesizer) :
    ((vowelStep n i st).2).config = st.config := by
  simp only [vowelStep, glottal_pulse_config]

/-- `nasalStep` preserves the configuration. -/
theorem nasalStep_config (n i : ℕ) (st : FormantSynthesizer) :
    ((nasalStep n i st).2).config = st.config := by
  simp only [nasalStep, glottal_pulse_config]

/-- `plosiveBurstStep` preserves the configuration. -/
theorem plosiveBurstStep_config (v : Bool) (n i : ℕ) (st : FormantSynthesizer) :
    ((plosiveBurstStep v n i st).2).config = st.config := by
  cases v <;>
    simp only [plosiveBurstStep, Bool.false_eq_true, if_false, if_true,
      glottal_pulse_config, noise_config]

/-- `fricativeStep` preserves the configuration. -/
theorem fricativeStep_config (v : Bool) (n i : ℕ) (st : FormantSynthesizer) :
    ((fricativeStep v n i st).2).config = st.config := by
  cases v <;>
    simp only [fricativeStep, Bool.false_eq_true, if_false, if_true,
      glottal_pulse_config, noise_config]

/-- `approximantStep` preserves the configuration. -/
theorem approximantStep_config (v : Bool) (n i : ℕ) (st : FormantSynthesizer) :
    ((approximantStep v n i st).2).config = st.config := by
  cases v <;>
    simp only [approximantStep, Bool.false_eq_true, if_false, if_true,
      glottal_pulse_config, noise_config]

/-- `synthesize_phoneme` never modifies the configuration. -/
theorem synthesize_phoneme_config (st : FormantSynthesizer) (ops : FOps)
    (p : Phoneme) (d : ℕ) :
    ((st.synthesize_phoneme ops p d).2).config = st.config := by
  unfold FormantSynthesizer.synthesize_phoneme
  cases p.category with
  | Silence => rfl
  | Vowel =>
    cases p.formants with
    | none => rfl
    | some fv =>
      simp only [FormantSynthesizer.synthesize_vowel]
      exact iterSamples_config _ (vowelStep_config _) _ _ _
  | Diphthong =>
    cases p.formants with
    | none => rfl
    | some fv =>
      simp only [FormantSynthesizer.synthesize_vowel]
      exact iterSamples_config _ (vowelStep_config _) _ _ _
  | Nasal =>
    cases p.formants with
    | none => rfl
    | some fv =>
      simp only [FormantSynthesizer.synthesize_nasal]
      exact iterSamples_config _ (nasalStep_config _) _ _ _
  | Plosive =>
    simp only [FormantSynthesizer.synthesize_plosive]
    exact iterSamples_config _ (fun i st => plosiveBurstStep_config p.voiced _ i st) _ _ _
  | Fricative =>
    simp only [FormantSynthesizer.synthesize_fricative]
    exact iterSamples_config _ (fun i st => fricativeStep_config p.voiced _ i st) _ _ _
  | Affricate =>
    simp only [FormantSynthesizer.synthesize_affricate,
      FormantSynthesizer.synthesize_plosive, FormantSynthesizer.synthesize_fricative]
    rw [iterSamples_config _ (fun i st => fricativeStep_config p.voiced _ i st),
      iterSamples_config _ (fun i st => plosiveBurstStep_config p.voiced _ i st)]
  | Lateral =>
    cases p.formants with
    | none => rfl
    | some fv =>
      simp only [FormantSynthesizer.synthesize_approximant]
      exact iterSamples_config _ (fun i st => approximantStep_config p.voiced _ i st) _ _ _
  | Rhotic =>
    cases p.formants with
    | none => rfl
    | some fv =>
      simp only [FormantSynthesizer.synthesize_approximant]
      exact iterSamples_config _ (fun i st => approximantStep_config p.voiced _ i st) _ _ _
  | Approximant =>
    cases p.formants with
    | none => rfl
    | some fv =>
      simp only [FormantSynthesizer.synthesize_approximant]
      exact iterSamples_config _ (fun i st => approximantStep_config p.voiced _ i st) _ _ _

/-- A successful association-list lookup returns a stored value. -/
theorem lookup_all {β : Type} (q : β → Bool) :
    ∀ (l : List (String × β)) (tok : String) (p : β),
      l.all (fun kv => q kv.2) = true → l.lookup tok = some p →
        q p = true := by
  intro l
  induction l with
  | nil => intro tok p _ h; cases h
  | cons kv rest ih =>
    intro tok p hall h
    simp only [List.all_cons, Bool.and_eq_true] at hall
    rw [List.lookup] at h
    by_cases hk : tok == kv.1
    · rw [hk] at h
      cases h
      exact hall.1
    · rw [Bool.not_eq_true] at hk
      rw [hk] at h
      exact ih tok p hall.2 h

/-- A successful lookup in a good inventory yields a good phoneme. -/
theorem goodInventory_get {inv : PhonemeInventory} {tok : String} {p : Phoneme}
    (hg : goodInventory inv = true) (h : inv.get tok = some p) :
    goodPhoneme p = true :=
  lookup_all goodPhoneme inv.phonemes tok p hg h

/-- The sample count `synthesize_phoneme` produces from a duration
argument, for a good phoneme: exactly the truncated
`duration / 1000 * sample_rate / rate`. -/
theorem synthesize_phoneme_length (st : FormantSynthesizer) (ops : FOps)
    (p : Phoneme) (d : ℕ) (hp : goodPhoneme p = true) :
    ((st.synthesize_phoneme ops p d).1).length
      = ratToNat ((d : ℚ) / 1000 * (st.config.sample_rate : ℚ) / st.config.rate) := by
  unfold FormantSynthesizer.synthesize_phoneme
  cases hcat : p.category with
  | Silence => simp
  | Vowel =>
    rw [goodPhoneme, hcat] at hp
    simp only [vowelLike, Bool.not_true, Bool.false_or] at hp
    obtain ⟨fv, hfv⟩ := Option.isSome_iff_exists.mp hp
    simp [hfv, FormantSynthesizer.synthesize_vowel, iterSamples_length]
  | Diphthong =>
    rw [goodPhoneme, hcat] at hp
    simp only [vowelLike, Bool.not_true, Bool.false_or] at hp
    obtain ⟨fv, hfv⟩ := Option.isSome_iff_exists.mp hp
    simp [hfv, FormantSynthesizer.synthesize_vowel, iterSamples_length]
  | Nasal =>
    rw [goodPhoneme, hcat] at hp
    simp only [vowelLike, Bool.not_true, Bool.false_or] at hp
    obtain ⟨fv, hfv⟩ := Option.isSome_iff_exists.mp hp
    simp [hfv, FormantSynthesizer.synthesize_nasal, iterSamples_length]
  | Lateral =>
    rw [goodPhoneme, hcat] at hp
    simp only [vowelLike, Bool.not_true, Bool.false_or] at hp
    obtain ⟨fv, hfv⟩ := Option.isSome_iff_exists.mp hp
    simp [hfv, FormantSynthesizer.synthesize_approximant, iterSamples_length]
  | Rhotic =>
    rw [goodPhoneme, hcat] at hp
    simp only [vowelLike, Bool.not_true, Bool.false_or] at hp
    obtain ⟨fv, hfv⟩ := Option.isSome_iff_exists.mp hp
    simp [hfv, FormantSynthesizer.synthesize_approximant, iterSamples_length]
  | Approximant =>
    rw [goodPhoneme, hcat] at hp
    simp only [vowelLike, Bool.not_true, Bool.false_or] at hp
    obtain ⟨fv, hfv⟩ := Option.isSome_iff_exists.mp hp
    simp [hfv, FormantSynthesizer.synthesize_approximant, iterSamples_length]
  | Plosive =>
    simp only [FormantSynthesizer.synthesize_plosive, List.length_append,
      List.length_replicate, iterSamples_length]
    omega
  | Fricative =>
    simp [FormantSynthesizer.synthesize_fricative, iterSamples_length]
  | Affricate =>
    simp only [FormantSynthesizer.synthesize_affricate,
      FormantSynthesizer.synthesize_plosive,
      FormantSynthesizer.synthesize_fricative, List.length_append,
      List.length_replicate, iterSamples_length]
    omega

/-- `synthesize_phoneme_with_pitch_mod` also leaves the configuration
unchanged. -/
theorem with_pitch_mod_config (st : FormantSynthesizer) (ops : FOps)
    (p : Phoneme) (d : ℕ) (m : ℚ) :
    ((st.synthesize_phoneme_with_pitch_mod ops p d m).2).config = st.config := by
  simp only [FormantSynthesizer.synthesize_phoneme_with_pitch_mod,
    synthesize_phoneme_config]

/-- Pitch modification does not change how many samples are produced. -/
theorem with_pitch_mod_length (st : FormantSynthesizer) (ops : FOps)
    (p : Phoneme) (d : ℕ) (m : ℚ) (hp : goodPhoneme p = true) :
    ((st.synthesize_phoneme_with_pitch_mod ops p d m).1).length
      = ratToNat ((d : ℚ) / 1000 * (st.config.sample_rate : ℚ) / st.config.rate) := by
  simp only [FormantSynthesizer.synthesize_phoneme_with_pitch_mod]
  rw [synthesize_phoneme_length _ _ _ _ hp]

/-- Applying a pitch modification of one is the identity on the direct
synthesis: the scaled pitch equals the original and the restore writes the
value already present. -/
theorem with_pitch_mod_one (st : FormantSynthesizer) (ops : FOps)
    (p : Phoneme) (d : ℕ) :
    st.synthesize_phoneme_with_pitch_mod ops p d 1
      = st.synthesize_phoneme ops p d := by
  simp only [FormantSynthesizer.synthesize_phoneme_with_pitch_mod, mul_one]
  rw [show ({ st with config := { st.config with pitch_hz := st.config.pitch_hz } })
      = st from rfl]
  rw [← synthesize_phoneme_config st ops p d]

/-- `synthesizePhonemeList` leaves the configuration unchanged. -/
theorem synthList_config (ops : FOps) (inv : PhonemeInventory) :
    ∀ (toks : List String) (st : FormantSynthesizer),
      ((synthesizePhonemeList ops inv toks st).2).config = st.config := by
  intro toks
  induction toks with
  | nil => intro st; rfl
  | cons tok rest ih =>
    intro st
    simp only [synthesizePhonemeList]
    by_cases h : tok = "_"
    · simp only [h, if_pos, if_true]
      exact ih st
    · simp only [h, if_neg, if_false, ite_false]
      cases hg : inv.get tok with
      | none => exact ih st
      | some p =>
        simp only []
        rw [ih, synthesize_phoneme_config]

/-- The total length of `synthesize_phonemes` output is the sum of the
per-token contributions, provided the inventory is good. -/
theorem synthList_length (ops : FOps) (inv : PhonemeInventory)
    (hg : goodInventory inv = true) :
    ∀ (toks : List String) (st : FormantSynthesizer),
      ((synthesizePhonemeList ops inv toks st).1).length
        = (toks.map (tokenContribution st.config inv)).sum := by
  intro toks
  induction toks with
  | nil => intro st; rfl
  | cons tok rest ih =>
    intro st
    simp only [synthesizePhonemeList, List.map_cons, List.sum_cons]
    by_cases h : tok = "_"
    · simp only [h, if_pos, if_true, List.length_append, List.length_replicate]
      rw [ih]
      simp [tokenContribution]
    · simp only [h, if_neg, if_false, ite_false]
      cases hget : inv.get tok with
      | none =>
        rw [ih]
        simp [tokenContribution, h, hget]
      | some p =>
        simp only [List.length_append]
        rw [ih, synthesize_phoneme_config,
          synthesize_phoneme_length _ _ _ _ (goodInventory_get hg hget)]
        simp [tokenContribution, h, hget]

/-- With the default prosody, the pitch modulation is the constant one. -/
theorem pitch_at_default (pos : ℚ) :
    ProsodyConfig.default.pitch_at_position pos = 1 := by
  simp only [ProsodyConfig.pitch_at_position, ProsodyConfig.default]
  ring

/-- `synthesize_next_phoneme` does not touch the token list, inventory,
prosody, chunk size, completion-independent configuration. -/
theorem next_fields (st : AudioStream) (ops : FOps) :
    (st.synthesize_next_phoneme ops).phoneme_tokens = st.phoneme_tokens
    ∧ (st.synthesize_next_phoneme ops).inventory = st.inventory
    ∧ (st.synthesize_next_phoneme ops).prosody = st.prosody
    ∧ (st.synthesize_next_phoneme ops).chunk_size = st.chunk_size
    ∧ (st.synthesize_next_phoneme ops).formant_synth.config
        = st.formant_synth.config := by
  unfold AudioStream.synthesize_next_phoneme
  by_cases h : st.current_index < st.phoneme_tokens.length
  · rw [dif_pos h]
    by_cases htok : st.phoneme_tokens.get ⟨st.current_index, h⟩ = "_"
    · rw [if_pos htok]
      exact ⟨rfl, rfl, rfl, rfl, rfl⟩
    · rw [if_neg htok]
      cases hget : st.inventory.get (st.phoneme_tokens.get ⟨st.current_index, h⟩) with
      | none => exact ⟨rfl, rfl, rfl, rfl, rfl⟩
      | some p =>
        refine ⟨rfl, rfl, rfl, rfl, ?_⟩
        simp only []
        rw [with_pitch_mod_config]
  · rw [dif_neg h]
    exact ⟨rfl, rfl, rfl, rfl, rfl⟩

/-- Advancing the stream by one phoneme moves the produced floats from
`remFloats` into the buffer: the concatenation is conserved. -/
theorem next_buffer_rem (st : AudioStream) (ops : FOps)
    (hc : st.is_complete = false) :
    (st.synthesize_next_phoneme ops).buffer
        ++ remFloats ops (st.synthesize_next_phoneme ops)
      = st.buffer ++ remFloats ops st := by
  unfold AudioStream.synthesize_next_phoneme
  by_cases h : st.current_index < st.phoneme_tokens.length
  · have hfuel : st.phoneme_tokens.length - st.current_index
        = (st.phoneme_tokens.length - (st.current_index + 1)) + 1 := by omega
    rw [dif_pos h]
    by_cases htok : st.phoneme_tokens.get ⟨st.current_index, h⟩ = "_"
    · rw [if_pos htok]
      conv_rhs => rw [remFloats, hc]
      simp only [Bool.false_eq_true, if_false, ite_false, hfuel, remFloatsGo,
        dif_pos h, htok, if_pos, ite_true]
      rw [remFloats]
      simp only [hc, Bool.false_eq_true, if_false, ite_false, List.append_assoc]
    · rw [if_neg htok]
      cases hget : st.inventory.get (st.phoneme_tokens.get ⟨st.current_index, h⟩) with
      | none =>
        conv_rhs => rw [remFloats, hc]
        simp only [Bool.false_eq_true, if_false, ite_false, hfuel, remFloatsGo,
          dif_pos h, htok, if_neg, hget]
        rw [remFloats]
        simp only [hc, Bool.false_eq_true, if_false, ite_false]
      | some p =>
        conv_rhs => rw [remFloats, hc]
        simp only [Bool.false_eq_true, if_false, ite_false, hfuel, remFloatsGo,
          dif_pos h, htok, if_neg, hget, AudioStream.progress]
        rw [remFloats]
        simp only [hc, Bool.false_eq_true, if_false, ite_false, List.append_assoc]
  · rw [dif_neg h]
    rw [remFloats]
    simp only [if_pos, ite_true]
    conv_rhs => rw [remFloats, hc]
    have hfuel : st.phoneme_tokens.length - st.current_index = 0 := by omega
    simp only [Bool.false_eq_true, if_false, ite_false, hfuel, remFloatsGo,
      List.append_nil]

/-- The fill loop preserves the stable stream fields and the
concatenation of buffer and pending floats. -/
theorem fillFuel_invariant (ops : FOps) : ∀ (fuel : ℕ) (st : AudioStream),
    (AudioStream.fillFuel ops fuel st).phoneme_tokens = st.phoneme_tokens
    ∧ (AudioStream.fillFuel ops fuel st).inventory = st.inventory
    ∧ (AudioStream.fillFuel ops fuel st).prosody = st.prosody
    ∧ (AudioStream.fillFuel ops fuel st).chunk_size = st.chunk_size
    ∧ (AudioStream.fillFuel ops fuel st).buffer
        ++ remFloats ops (AudioStream.fillFuel ops fuel st)
      = st.buffer ++ remFloats ops st := by
  intro fuel
  induction fuel with
  | zero => intro st; exact ⟨rfl, rfl, rfl, rfl, rfl⟩
  | succ fuel ih =>
    intro st
    rw [AudioStream.fillFuel]
    by_cases hcond : st.buffer.length < st.chunk_size ∧ st.is_complete = false
    · rw [if_pos (by simp [hcond.1, hcond.2])]
      obtain ⟨h1, h2, h3, h4, h5⟩ := ih (st.synthesize_next_phoneme ops)
      obtain ⟨n1, n2, n3, n4, _⟩ := next_fields st ops
      exact ⟨h1.trans n1, h2.trans n2, h3.trans n3, h4.trans n4,
        h5.trans (next_buffer_rem st ops hcond.2)⟩
    · rw [if_neg (by
        intro hb
        rw [Bool.and_eq_true, decide_eq_true_eq] at hb
        exact hcond ⟨hb.1, of_decide_eq_true hb.2⟩)]
      exact ⟨rfl, rfl, rfl, rfl, rfl⟩

/-- With enough fuel the fill loop reaches its exit condition: either the
buffer holds a whole chunk or synthesis is complete. -/
theorem fillFuel_terminal (ops : FOps) : ∀ (fuel : ℕ) (st : AudioStream),
    fillMeasure st ≤ fuel →
      st.chunk_size ≤ (AudioStream.fillFuel ops fuel st).buffer.length
      ∨ (AudioStream.fillFuel ops fuel st).is_complete = true := by
  intro fuel
  induction fuel with
  | zero =>
    intro st hm
    rw [AudioStream.fillFuel]
    rw [fillMeasure] at hm
    by_cases hc : st.is_complete = true
    · exact Or.inr hc
    · rw [if_neg hc] at hm
      have : min st.current_index st.phoneme_tokens.length
          ≤ st.phoneme_tokens.length := min_le_right _ _
      omega
  | succ fuel ih =>
    intro st hm
    rw [AudioStream.fillFuel]
    by_cases hcond : st.buffer.length < st.chunk_size ∧ st.is_complete = false
    · rw [if_pos (by simp [hcond.1, hcond.2])]
      have hlt := fillMeasure_next_lt st ops hcond.2
      have := ih (st.synthesize_next_phoneme ops) (by omega)
      obtain ⟨_, _, _, n4, _⟩ := next_fields st ops
      rw [n4] at this
      exact this
    · rw [if_neg (by
        intro hb
        rw [Bool.and_eq_true, decide_eq_true_eq] at hb
        exact hcond ⟨hb.1, of_decide_eq_true hb.2⟩)]
      by_cases hc : st.is_complete = true
      · exact Or.inr hc
      · left
        by_contra hlen
        exact hcond ⟨by omega, by
          revert hc
          cases st.is_complete <;> simp⟩

/-- Draining the whole stream reproduces the PCM conversion of all floats:
the concatenation of the chunk samples is the PCM16 rendering of the
buffered plus pending float samples. -/
theorem streamJoin (ops : FOps) : ∀ (n : ℕ) (st : AudioStream),
    st.buffer.length + (remFloats ops st).length < n →
    0 < st.chunk_size →
    ((streamChunksFuel ops n st).map AudioChunk.samples).flatten
      = to_pcm16 (st.buffer ++ remFloats ops st) := by
  intro n
  induction n with
  | zero => intro st h _; omega
  | succ n ih =>
    intro st htot hcs
    rw [streamChunksFuel, AudioStream.next]
    obtain ⟨f1, f2, f3, f4, f5⟩ := fillFuel_invariant ops (fillMeasure st) st
    have hterm := fillFuel_terminal ops (fillMeasure st) st (le_refl _)
    rw [AudioStream.fill]
    set st' := AudioStream.fillFuel ops (fillMeasure st) st with hst'
    by_cases hb : st'.buffer.isEmpty
    · rw [if_pos hb]
      have hbe : st'.buffer = [] := List.isEmpty_iff.mp hb
      have hrem : remFloats ops st' = [] := by
        rcases hterm with hlen | hcomp
        · exfalso
          rw [hbe] at hlen
          simp at hlen
          omega
        · rw [remFloats, hcomp]
          simp
      rw [← f5, hbe, hrem]
      simp [to_pcm16]
    · rw [if_neg hb]
      simp only [AudioStream.extract_chunk, List.map_cons, List.flatten_cons]
      have hbne : st'.buffer ≠ [] := by
        intro hx
        rw [hx] at hb
        simp at hb
      have hcons : st'.buffer.length + (remFloats ops st').length
          = st.buffer.length + (remFloats ops st).length := by
        have := congrArg List.length f5
        simp only [List.length_append] at this
        exact this
      have hk1 : 1 ≤ min st'.chunk_size st'.buffer.length := by
        have h1 : 1 ≤ st'.chunk_size := by rw [f4]; omega
        have h2 : 1 ≤ st'.buffer.length := by
          cases hx : st'.buffer with
          | nil => exact absurd hx hbne
          | cons a l => simp [hx]
        omega
      rw [ih { st' with buffer := st'.buffer.drop (min st'.chunk_size st'.buffer.length) }
        (by
          have hrem2 : remFloats ops { st' with
              buffer := st'.buffer.drop (min st'.chunk_size st'.buffer.length) }
            = remFloats ops st' := rfl
          simp only [hrem2, List.length_drop]
          omega)
        (by show 0 < st'.chunk_size; rw [f4]; exact hcs)]
      have hrem2 : remFloats ops { st' with
          buffer := st'.buffer.drop (min st'.chunk_size st'.buffer.length) }
        = remFloats ops st' := rfl
      rw [hrem2]
      show to_pcm16 _ ++ to_pcm16 (List.drop _ st'.buffer ++ remFloats ops st') = _
      rw [← f5]
      simp only [to_pcm16, ← List.map_append]
      rw [← List.append_assoc, List.take_append_drop]

/-- With the default prosody (the streaming path with prosody disabled),
the pending streaming floats coincide with the batch token loop of
`synthesize_phonemes`. -/
theorem remFloatsGo_default (ops : FOps) (inv : PhonemeInventory)
    (tokens : List String) :
    ∀ (k i : ℕ) (fs : FormantSynthesizer),
      k = tokens.length - i →
      fs.config.sample_rate = SAMPLE_RATE →
      remFloatsGo ops inv ProsodyConfig.default tokens k fs i
        = (synthesizePhonemeList ops inv (tokens.drop i) fs).1 := by
  intro k
  induction k with
  | zero =>
    intro i fs hk _
    have hle : tokens.length ≤ i := by omega
    rw [List.drop_eq_nil_of_le hle]
    rfl
  | succ k ih =>
    intro i fs hk hsr
    have h : i < tokens.length := by omega
    have hdrop : tokens.drop i = tokens.get ⟨i, h⟩ :: tokens.drop (i + 1) := by
      rw [List.get_eq_getElem]
      exact List.drop_eq_getElem_cons h
    rw [remFloatsGo, dif_pos h, hdrop, synthesizePhonemeList]
    by_cases htok : tokens.get ⟨i, h⟩ = "_"
    · rw [if_pos htok, if_pos htok]
      rw [ih (i + 1) fs (by omega) hsr]
      simp only [pauseSamples, hsr]
    · rw [if_neg htok, if_neg htok]
      cases hget : inv.get (tokens.get ⟨i, h⟩) with
      | none => exact ih (i + 1) fs (by omega) hsr
      | some p =>
        simp only [pitch_at_default, with_pitch_mod_one]
        rw [ih (i + 1) ((fs.synthesize_phoneme ops p
          (scaledDuration fs.config p.duration_ms)).2) (by omega)
          (by rw [synthesize_phoneme_config]; exact hsr)]

/-- Auxiliary: the tail determines the last element of a nonempty cons. -/
theorem getLast_cons_ne {α : Type} (a : α) (l : List α) (h : l ≠ []) :
    (a :: l).getLast? = l.getLast? := by
  cases l with
  | nil => exact absurd rfl h
  | cons b m => rw [List.getLast?_cons_cons]

/-- A complete stream with an empty buffer yields no further chunks. -/
theorem streamChunksFuel_done (ops : FOps) (n : ℕ) (st : AudioStream)
    (hc : st.is_complete = true) (hb : st.buffer = []) :
    streamChunksFuel ops n st = [] := by
  cases n with
  | zero => rfl
  | succ n =>
    rw [streamChunksFuel, AudioStream.next, AudioStream.fill]
    have hm : fillMeasure st = 0 := by rw [fillMeasure, hc]; simp
    rw [hm]
    rw [show AudioStream.fillFuel ops 0 st = st from rfl]
    rw [if_pos (by rw [hb]; rfl)]

/-- When the total pending sample count is not a multiple of the chunk
size, the stream ends with a final chunk. -/
theorem streamLastFinal (ops : FOps) : ∀ (n : ℕ) (st : AudioStream),
    st.buffer.length + (remFloats ops st).length < n →
    0 < st.chunk_size →
    ¬ (st.chunk_size ∣ (st.buffer.length + (remFloats ops st).length)) →
    ∃ c, (streamChunksFuel ops n st).getLast? = some c ∧ c.is_final = true := by
  intro n
  induction n with
  | zero => intro st h _ _; omega
  | succ n ih =>
    intro st htot hcs hnd
    have htotpos : st.buffer.length + (remFloats ops st).length ≠ 0 := by
      intro h0
      exact hnd (h0 ▸ Dvd.intro 0 rfl)
    rw [streamChunksFuel, AudioStream.next]
    obtain ⟨f1, f2, f3, f4, f5⟩ := fillFuel_invariant ops (fillMeasure st) st
    have hterm := fillFuel_terminal ops (fillMeasure st) st (le_refl _)
    rw [AudioStream.fill]
    set st' := AudioStream.fillFuel ops (fillMeasure st) st with hst'
    have hcons : st'.buffer.length + (remFloats ops st').length
        = st.buffer.length + (remFloats ops st).length := by
      have := congrArg List.length f5
      simp only [List.length_append] at this
      exact this
    have hbne : ¬ st'.buffer.isEmpty = true := by
      intro hx
      have hbe : st'.buffer = [] := List.isEmpty_iff.mp hx
      rcases hterm with hlen | hcomp
      · rw [hbe] at hlen
        simp at hlen
        omega
      · have hrem : remFloats ops st' = [] := by rw [remFloats, hcomp]; simp
        rw [hbe, hrem] at hcons
        simp at hcons
        omega
    rw [if_neg hbne]
    simp only [AudioStream.extract_chunk]
    set k := min st'.chunk_size st'.buffer.length with hk
    by_cases hdone : st'.is_complete = true ∧ st'.buffer.drop k = []
    · have hrest : streamChunksFuel ops n
          { st' with buffer := st'.buffer.drop k } = [] := by
        exact streamChunksFuel_done ops n _ hdone.1 hdone.2
      rw [hrest]
      refine ⟨_, by rw [List.getLast?_singleton], ?_⟩
      simp only [hdone.1, hdone.2, List.isEmpty_nil, Bool.and_self]
    · have hblen : 1 ≤ st'.buffer.length := by
        cases hx : st'.buffer with
        | nil => rw [hx] at hbne; simp at hbne
        | cons a l => simp [hx]
      have hkchunk : k = st'.chunk_size := by
        by_cases hcomp : st'.is_complete = true
        · have hdropne : st'.buffer.drop k ≠ [] := fun hx => hdone ⟨hcomp, hx⟩
          rw [hk]
          rcases Nat.le_total st'.chunk_size st'.buffer.length with hle | hle
          · exact min_eq_left hle
          · exfalso
            apply hdropne
            rw [hk, min_eq_right hle]
            simp
        · rcases hterm with hlen | hcomp2
          · rw [f4] at hk ⊢
            rw [hk]
            exact min_eq_left (by rw [← f4] at hlen ⊢; exact hlen)
          · exact absurd hcomp2 hcomp
      have hchunkle : st'.chunk_size ≤ st'.buffer.length + (remFloats ops st').length := by
        calc st'.chunk_size = k := hkchunk.symm
          _ ≤ st'.buffer.length := by rw [hk]; exact min_le_right _ _
          _ ≤ _ := Nat.le_add_right _ _
      have ihap := ih { st' with buffer := st'.buffer.drop k }
        (by
          have hrem2 : remFloats ops { st' with buffer := st'.buffer.drop k }
              = remFloats ops st' := rfl
          show (st'.buffer.drop k).length + _ < n
          rw [hrem2, List.length_drop]
          have hkpos : 1 ≤ k := by
            rw [hkchunk, f4]
            omega
          omega)
        (by show 0 < st'.chunk_size; rw [f4]; exact hcs)
        (by
          show ¬ st'.chunk_size ∣ ((st'.buffer.drop k).length + _)
          have hrem2 : remFloats ops { st' with buffer := st'.buffer.drop k }
              = remFloats ops st' := rfl
          rw [hrem2, List.length_drop]
          intro hdvd
          apply hnd
          rw [← hcons]
          have hkb : k ≤ st'.buffer.length := by
            rw [hk]
            exact min_le_right _ _
          have hks : k = st.chunk_size := hkchunk.trans f4
          have heq : st'.buffer.length + (remFloats ops st').length
              = (st'.buffer.length - k + (remFloats ops st').length)
                + st.chunk_size := by omega
          rw [heq]
          rw [f4] at hdvd
          exact Nat.dvd_add hdvd (dvd_refl _))
      obtain ⟨c, hlast, hfinal⟩ := ihap
      have hrestne : streamChunksFuel ops n { st' with buffer := st'.buffer.drop k } ≠ [] := by
        intro hx
        rw [hx] at hlast
        cases hlast
      refine ⟨c, ?_, hfinal⟩
      rw [getLast_cons_ne _ _ hrestne]
      exact hlast

/-- The pending float count of a stream is the sum of the per-token
contributions of the remaining tokens (any prosody: pitch modulation
never changes sample counts). -/
theorem remFloatsGo_length (ops : FOps) (inv : PhonemeInventory)
    (pros : ProsodyConfig) (tokens : List String)
    (hg : goodInventory inv = true) :
    ∀ (k i : ℕ) (fs : FormantSynthesizer),
      k = tokens.length - i →
      fs.config.sample_rate = SAMPLE_RATE →
      (remFloatsGo ops inv pros tokens k fs i).length
        = ((tokens.drop i).map (tokenContribution fs.config inv)).sum := by
  intro k
  induction k with
  | zero =>
    intro i fs hk _
    have hle : tokens.length ≤ i := by omega
    rw [List.drop_eq_nil_of_le hle]
    rfl
  | succ k ih =>
    intro i fs hk hsr
    have h : i < tokens.length := by omega
    have hdrop : tokens.drop i = tokens.get ⟨i, h⟩ :: tokens.drop (i + 1) := by
      rw [List.get_eq_getElem]
      exact List.drop_eq_getElem_cons h
    rw [remFloatsGo, dif_pos h, hdrop, List.map_cons, List.sum_cons]
    by_cases htok : tokens.get ⟨i, h⟩ = "_"
    · rw [if_pos htok]
      have he : tokens[i] = "_" := htok
      simp only [List.length_append, List.length_replicate]
      rw [ih (i + 1) fs (by omega) hsr]
      simp [tokenContribution, he, pauseSamples, hsr]
    · rw [if_neg htok]
      have he : ¬ tokens[i] = "_" := htok
      cases hget : inv.get (tokens.get ⟨i, h⟩) with
      | none =>
        have hge : inv.get tokens[i] = none := hget
        rw [ih (i + 1) fs (by omega) hsr]
        simp [tokenContribution, he, hge]
      | some p =>
        have hge : inv.get tokens[i] = some p := hget
        simp only [List.length_append]
        rw [ih (i + 1) _ (by omega)
          (by rw [with_pitch_mod_config]; exact hsr),
          with_pitch_mod_length _ _ _ _ _ (goodInventory_get hg hget)]
        rw [with_pitch_mod_config]
        simp [tokenContribution, he, hge, hsr]

/-- Digit characters have the expected code point. -/
theorem chr_digit_toNat (d : ℕ) (hd : d < 10) :
    (Char.ofNat (48 + d)).toNat = 48 + d := by
  interval_cases d <;> decide

/-- Digit characters pass the ASCII digit test. -/
theorem chr_digit_isDigit (d : ℕ) (hd : d < 10) :
    isAsciiDigit (Char.ofNat (48 + d)) = true := by
  interval_cases d <;> decide

/-- Digit characters are not the plus sign. -/
theorem chr_digit_ne_plus (d : ℕ) (hd : d < 10) :
    ¬ (Char.ofNat (48 + d) = '+') := by
  interval_cases d <;> decide

/-- All entries of `natDigitsRev` are decimal digits. -/
theorem natDigitsRev_lt : ∀ (fuel n : ℕ), ∀ d ∈ natDigitsRev fuel n, d < 10 := by
  intro fuel
  induction fuel with
  | zero => intro n d hd; cases hd
  | succ fuel ih =>
    intro n d hd
    rw [natDigitsRev] at hd
    by_cases hn : n = 0
    · rw [if_pos hn] at hd; cases hd
    · rw [if_neg hn] at hd
      rcases List.mem_cons.mp hd with h | h
      · rw [h]; exact Nat.mod_lt _ (by norm_num)
      · exact ih _ _ h

/-- `natDigitsRev` is nonempty on positive input with positive fuel. -/
theorem natDigitsRev_ne_nil (fuel n : ℕ) (hn : n ≠ 0) :
    natDigitsRev (fuel + 1) n ≠ [] := by
  rw [natDigitsRev, if_neg hn]
  exact List.cons_ne_nil _ _

/-- Evaluating the rendered digits folds back to the number. -/
theorem digitsVal_append_digit (xs : List Char) (c : Char) :
    digitsVal (xs ++ [c]) = digitsVal xs * 10 + (c.toNat - 48) := by
  simp [digitsVal, List.foldl_append]

/-- The digit rendering round-trips through `digitsVal`. -/
theorem natDigitsRev_val : ∀ (fuel n : ℕ), n ≤ fuel →
    digitsVal (((natDigitsRev fuel n).reverse).map
      (fun d => Char.ofNat (48 + d))) = n := by
  intro fuel
  induction fuel with
  | zero =>
    intro n hn
    interval_cases n
    rfl
  | succ fuel ih =>
    intro n hn
    rw [natDigitsRev]
    by_cases h0 : n = 0
    · rw [if_pos h0, h0]; rfl
    · rw [if_neg h0]
      rw [List.reverse_cons, List.map_append]
      simp only [List.map_cons, List.map_nil]
      rw [digitsVal_append_digit]
      rw [ih (n / 10) (by omega)]
      rw [chr_digit_toNat _ (Nat.mod_lt _ (by norm_num))]
      omega

/-- A list of prefix plus tail passes the prefix test. -/
theorem isPrefixOf_append (l t : List Char) : l.isPrefixOf (l ++ t) = true := by
  induction l with
  | nil => simp [List.isPrefixOf]
  | cons c rest ih => simp [List.isPrefixOf, ih]

/-- The decimal rendering of a `u32` parses back to the same number. -/
theorem parse_natToString (n : ℕ) (hn : n < 4294967296) :
    rustParseU32 (natToString n) = some n := by
  by_cases h0 : n = 0
  · rw [h0]
    decide
  · rw [natToString, if_neg h0]
    obtain ⟨m, hm⟩ : ∃ m, n = m + 1 := ⟨n - 1, by omega⟩
    have hne : natDigitsRev n n ≠ [] := by
      rw [hm]
      exact natDigitsRev_ne_nil m (m + 1) (by omega)
    set digits := natDigitsRev n n with hdig
    have hval : digitsVal ((digits.reverse).map (fun d => Char.ofNat (48 + d)))
        = n := natDigitsRev_val n n (le_refl n)
    have hlt : ∀ d ∈ digits, d < 10 := natDigitsRev_lt n n
    obtain ⟨d0, drest, hcons⟩ : ∃ d0 drest, digits.reverse = d0 :: drest := by
      cases hx : digits.reverse with
      | nil =>
        exfalso
        exact hne (by
          have := congrArg List.reverse hx
          simpa using this)
      | cons a l => exact ⟨a, l, rfl⟩
    have hd0 : d0 < 10 := by
      apply hlt
      have : d0 ∈ digits.reverse := by rw [hcons]; exact List.mem_cons_self _ _
      exact List.mem_reverse.mp this
    rw [rustParseU32]
    simp only [hcons, List.map_cons]
    rw [if_neg (chr_digit_ne_plus d0 hd0)]
    have hall : ((d0 :: drest).map (fun d => Char.ofNat (48 + d))).all
        isAsciiDigit = true := by
      rw [List.all_eq_true]
      intro c hc
      obtain ⟨d, hd, hcd⟩ := List.mem_map.mp hc
      have : d ∈ digits := List.mem_reverse.mp (hcons ▸ hd)
      rw [← hcd]
      exact chr_digit_isDigit d (hlt d this)
    rw [hcons] at hval
    simp only [List.map_cons] at hval
    rw [if_pos]
    · exact congrArg some hval
    · simp only [Bool.and_eq_true, decide_eq_true_eq, ne_eq]
      refine ⟨⟨?_, ?_⟩, ?_⟩
      · simp
      · exact hall
      · exact lt_of_eq_of_lt hval hn

/-- The characters of the break sentinel split into prefix, digits, suffix. -/
theorem breakSentinel_data (D : ℕ) :
    (breakSentinel D).data
      = ("__break_".data ++ (natToString D).data) ++ "__".data := rfl

/-- A break-sentinel segment with duration below 2^32 contributes exactly
`round-down(D/1000 * sample_rate)` zero samples in `synthesize_segments`. -/
theorem breakSegment_samples (s : Synthesizer) (ops : FOps) (D : ℕ)
    (hD : D < 4294967296) (pros : ProsodyConfig) (rest : List SynthesisSegment) :
    synthesizeSegmentsLoop s ops (⟨breakSentinel D, pros⟩ :: rest)
      = List.replicate (ratToNat ((D : ℚ) / 1000 * (SAMPLE_RATE : ℚ))) (0 : ℤ)
        ++ synthesizeSegmentsLoop s ops rest := by
  have h8 : ("__break_".data).length = 8 := rfl
  have h2 : ("__".data).length = 2 := rfl
  have hsw : strStartsWith (breakSentinel D) "__break_" = true := by
    rw [strStartsWith, breakSentinel_data, List.append_assoc]
    exact isPrefixOf_append _ _
  have hew : strEndsWith (breakSentinel D) "__" = true := by
    rw [strEndsWith, breakSentinel_data, List.reverse_append]
    exact isPrefixOf_append _ _
  have hdrop : ((breakSentinel D).data.drop 8)
      = (natToString D).data ++ "__".data := by
    rw [breakSentinel_data, List.append_assoc, ← h8, List.drop_left]
  have hlen10 : (breakSentinel D).data.length - 10
      = (natToString D).data.length := by
    rw [breakSentinel_data]
    simp only [List.length_append, List.length_cons, List.length_nil]
    omega
  have hds : String.mk (((breakSentinel D).data.drop 8).take
      ((breakSentinel D).data.length - 10)) = natToString D := by
    rw [hdrop, hlen10, List.take_left]
  rw [synthesizeSegmentsLoop]
  dsimp only
  rw [hsw, hew]
  simp only [Bool.and_self, if_true]
  rw [hds, parse_natToString D hD]

theorem goodInventory_english : goodInventory PhonemeInventory.english = true := by
  decide

/-- Claim C1: the claim asserts every non-underscore token of the G2P
output lies in the matching inventory.  The code refutes it: the English
rules emit "ks" (for the letter x) and "kw" (for qu), and neither symbol
is in the English inventory; the tokens reach `text_to_phonemes` output
unchanged.  This contradicts the invariant the spec states twice, so it
is a bug in the code (the rules emit symbols the inventory lacks and the
synthesizer silently drops them). -/
theorem c1_unknown_tokens :
    ((Synthesizer.new.text_to_phonemes "box" PhonemeFormat.Ascii).map
        (fun r => r.phonemes) = .ok "b A ks")
  ∧ "ks" ∈ splitWs "b A ks" ∧ ¬ "ks" = "_"
  ∧ Synthesizer.new.get_inventory.get "ks" = none
  ∧ "kw" ∈ splitWs (G2PConverter.english.convert "quit")
  ∧ Synthesizer.new.get_inventory.get "kw" = none := by decide

/-- Claim C7: after constructing the English and the Spanish converter,
every first-character rule bucket is pairwise ordered by priority
descending with ties broken by longer byte-length pattern first
(`bucketSorted`, built on the comparator `ruleLe` of `add_rule`), and in
particular the head of each bucket attains the maximum priority of the
bucket (`bucketHeadMax`).  Lookups (`apply_rules`) read the stored
buckets and never re-sort. -/
theorem c7_bucket_order :
    (allBuckets G2PConverter.english bucketSorted
      && allBuckets G2PConverter.english bucketHeadMax
      && allBuckets G2PConverter.spanish bucketSorted
      && allBuckets G2PConverter.spanish bucketHeadMax) = true := by decide

/-- Claim C6: two synthesizers built from equal voice configurations
produce identical audio for every text, and each fresh
`FormantSynthesizer` starts from LCG noise state 12345 and pitch phase
0, so the output depends only on text and configuration. -/
theorem c6_deterministic (c₁ c₂ : VoiceConfig) (ops : FOps) (text : String)
    (h : c₁ = c₂) :
    (Synthesizer.with_config c₁).synthesize ops text
        = (Synthesizer.with_config c₂).synthesize ops text
      ∧ ((Synthesizer.with_config c₁).create_formant_synthesizer ops).noise_state
          = 12345
      ∧ ((Synthesizer.with_config c₁).create_formant_synthesizer ops).pitch_phase
          = 0 := by
  subst h
  exact ⟨rfl, rfl, rfl⟩

theorem c6_witness :
    (Synthesizer.with_config VoiceConfig.default).synthesize FOps.zero "hi"
        = (Synthesizer.with_config VoiceConfig.default).synthesize FOps.zero "hi"
      ∧ ((Synthesizer.with_config VoiceConfig.default).create_formant_synthesizer
          FOps.zero).noise_state = 12345
      ∧ ((Synthesizer.with_config VoiceConfig.default).create_formant_synthesizer
          FOps.zero).pitch_phase = 0 :=
  c6_deterministic VoiceConfig.default VoiceConfig.default FOps.zero "hi" rfl

/-- Claim C10: a phoneme of a vowel-like category (Vowel, Diphthong,
Nasal, Lateral, Rhotic, Approximant) whose `formants` field is `None`
yields an empty sample vector from `synthesize_phoneme` for any
requested duration: it is dropped entirely instead of contributing
silence. -/
theorem c10_missing_formants_dropped (st : FormantSynthesizer) (ops : FOps)
    (p : Phoneme) (d : ℕ) (hcat : vowelLike p.category = true)
    (hf : p.formants = none) :
    (st.synthesize_phoneme ops p d).1 = [] := by
  rw [FormantSynthesizer.synthesize_phoneme]
  cases hc : p.category with
  | Vowel => simp [hf]
  | Diphthong => simp [hf]
  | Nasal => simp [hf]
  | Lateral => simp [hf]
  | Rhotic => simp [hf]
  | Approximant => simp [hf]
  | Silence => rw [hc] at hcat; exact absurd hcat (by decide)
  | Plosive => rw [hc] at hcat; exact absurd hcat (by decide)
  | Fricative => rw [hc] at hcat; exact absurd hcat (by decide)
  | Affricate => rw [hc] at hcat; exact absurd hcat (by decide)

theorem c10_witness :
    ((Synthesizer.new.create_formant_synthesizer FOps.zero).synthesize_phoneme
        FOps.zero ⟨"q", "q", PhonemeCategory.Vowel, 100, none, true⟩ 80).1 = [] :=
  c10_missing_formants_dropped _ FOps.zero _ 80 (by decide) rfl

/-- Counterexample to claim C9 as stated: the input "-" is non-empty,
yet under the default streaming configuration the stream yields no chunk
at all (G2P normalizes "-" to no phonemes, the fill loop completes
immediately with an empty buffer, and the iterator stops without
emitting a final chunk). -/
theorem c9_counterexample :
    streamChunks FOps.zero
      (StreamingSynthesizer.new.synthesize_stream FOps.zero "-") = [] := by decide

/-- Counterexample to claim C5 as stated: an attribute value without
quotes makes the parser fail with a fourth error kind, the unquoted
attribute value error (`src/ssml.rs:446`), which is not among the three
kinds the claim enumerates (empty tag name, unclosed attribute value,
missing closing angle bracket), as `claimedSsmlErr` records. -/
theorem c5_counterexample :
    Synthesizer.new.synthesize_ssml FOps.zero
        "<speak><break time=500ms/></speak>"
      = .error (.SynthesisError .unquotedAttr)
    ∧ claimedSsmlErr .unquotedAttr = false := ⟨by decide, rfl⟩

/-- Claim C5: the code can PANIC on reachable input, violating the rule of
the spec that errors surface synchronously through the return value.  The
plain input `__break__` parses to a single text element; its segment
passes both sentinel affix checks of `synthesize_segments` while its
9-byte text makes the Rust slice `&text[8..len - 2]` run from 8 down to 7
(`breakSlicePanic`), so Rust panics where the total model skips the
segment; a well-formed sentinel such as `__break_34__` does not trigger
it.  Separately, the byte walk of `parse_name` halts strictly inside the
encoding of `é` (`nameSplitPanic`), so Rust panics slicing the tag name
of the document `<é/>`, whose second character the element parser
reaches. -/
theorem c5_panic_reachable :
    SsmlParser.parse FOps.zero "__break__"
        = .ok ⟨[SsmlElement.Text "__break__"]⟩
  ∧ SsmlDocument.to_synthesis_segments ⟨[SsmlElement.Text "__break__"]⟩
      = [⟨"__break__", ProsodyConfig.default⟩]
  ∧ breakSlicePanic "__break__" = true
  ∧ breakSlicePanic (breakSentinel 34) = false
  ∧ nameSplitPanic 'é' = true
  ∧ (rustTrim "<é/>").data[1]? = some 'é'
  ∧ strStartsWith (rustTrim "<é/>") "<" = true := by
  refine ⟨rfl, rfl, by decide, by decide, by decide, by decide, by decide⟩

/-- Counterexample to claim C8 as stated: "Whatever?" is detected as a
WhQuestion because `detect` tests whether the text starts with an
interrogative word ("what" is a prefix of "whatever"), but its first
alphabetic word "whatever" is not one of the listed interrogative
words. -/
theorem c8_counterexample :
    SentenceType.detect "Whatever?" = SentenceType.WhQuestion
      ∧ ¬ (firstAlphabeticWord "Whatever?" ∈ whWords) := by decide

/-- The stream constructor written as an explicit record. -/
theorem synthesize_stream_eq (s : StreamingSynthesizer) (ops : FOps)
    (text : String) :
    s.synthesize_stream ops text =
      { phoneme_tokens := splitWs ((s.get_g2p).convert text)
      , current_index := 0
      , inventory := s.get_inventory
      , formant_synth := FormantSynthesizer.new ops
          { pitch_hz := s.config.voice.effective_pitch_hz
              * (streamProsody s text).pitch_multiplier
          , rate := s.config.voice.rate_multiplier
              * (streamProsody s text).rate_multiplier
          , volume := min s.config.voice.volume_level 1
              * (streamProsody s text).volume_multiplier
          , sample_rate := SAMPLE_RATE }
      , chunk_size := s.config.chunk_size
      , prosody := streamProsody s text
      , buffer := []
      , is_complete := false } := rfl

/-- Evaluation rule for the `u32` floor of a rational. -/
theorem ratToNat_eq (q : ℚ) (n : ℕ) (h1 : (n : ℚ) ≤ q) (h2 : q < n + 1) :
    ratToNat q = n := by
  rw [ratToNat]
  have hf : ⌊q⌋ = (n : ℤ) := by
    rw [Int.floor_eq_iff]
    constructor
    · exact_mod_cast h1
    · exact_mod_cast h2
  rw [hf]
  exact Int.toNat_natCast n

/-- The pending float count of a fresh stream is the sum of the per-token
contributions. -/
theorem freshRemLength (ops : FOps) (sc : StreamingConfig) (text : String)
    (hg : goodInventory ((StreamingSynthesizer.with_config sc).get_inventory)
      = true) :
    (remFloats ops ((StreamingSynthesizer.with_config sc).synthesize_stream
        ops text)).length
      = ((splitWs (((StreamingSynthesizer.with_config sc).get_g2p).convert
          text)).map
          (tokenContribution
            ((StreamingSynthesizer.with_config sc).synthesize_stream ops
              text).formant_synth.config
            ((StreamingSynthesizer.with_config sc).get_inventory))).sum := by
  rw [synthesize_stream_eq]
  rw [remFloats]
  dsimp only
  simp only [Bool.false_eq_true, if_false]
  rw [remFloatsGo_length _ _ _ _ hg _ 0 _ rfl rfl]
  rw [List.drop_zero]

/-- Claim C3: with prosody disabled and the same voice configuration on
both sides (and a positive chunk size, which every constructor
guarantees), concatenating the sample arrays of all chunks drained from
`synthesize_stream` equals the sample array of the batch
`synthesize`. -/
theorem c3_streaming_refines_batch (ops : FOps) (sc : StreamingConfig)
    (text : String) (hp : sc.enable_prosody = false)
    (hcs : 0 < sc.chunk_size) :
    ((streamChunks ops ((StreamingSynthesizer.with_config sc).synthesize_stream
        ops text)).map AudioChunk.samples).flatten
      = ((Synthesizer.with_config sc.voice).synthesize ops text).samples := by
  have hpros : streamProsody (StreamingSynthesizer.with_config sc) text
      = ProsodyConfig.default := by
    rw [streamProsody,
      show (StreamingSynthesizer.with_config sc).config = sc from rfl, hp]
    rfl
  set st := (StreamingSynthesizer.with_config sc).synthesize_stream ops text
    with hst
  have h1 : st.buffer.length + (remFloats ops st).length
      < st.buffer.length + (remFloats ops st).length + 1 := by omega
  have h2 : 0 < st.chunk_size := by
    rw [hst, synthesize_stream_eq]; exact hcs
  rw [streamChunks, streamJoin ops _ st h1 h2]
  rw [hst, synthesize_stream_eq, hpros]
  rw [remFloats]
  dsimp only
  simp only [Bool.false_eq_true, if_false, List.nil_append]
  rw [remFloatsGo_default ops _ _ _ 0 _ rfl rfl, List.drop_zero]
  rw [show (StreamingSynthesizer.with_config sc).config = sc from rfl]
  have hcfg : SynthesisConfig.mk
        (sc.voice.effective_pitch_hz * ProsodyConfig.default.pitch_multiplier)
        (sc.voice.rate_multiplier * ProsodyConfig.default.rate_multiplier)
        (min sc.voice.volume_level 1 * ProsodyConfig.default.volume_multiplier)
        SAMPLE_RATE
      = SynthesisConfig.mk sc.voice.effective_pitch_hz sc.voice.rate_multiplier
          (min sc.voice.volume_level 1) SAMPLE_RATE := by
    simp [ProsodyConfig.default]
  rw [hcfg]
  have hg2p : (StreamingSynthesizer.with_config sc).get_g2p
      = (Synthesizer.with_config sc.voice).get_g2p := rfl
  have hinv : (StreamingSynthesizer.with_config sc).get_inventory
      = (Synthesizer.with_config sc.voice).get_inventory := rfl
  rw [hg2p, hinv]
  simp only [Synthesizer.synthesize]
  by_cases hph : ((Synthesizer.with_config sc.voice).get_g2p).convert text = ""
  · rw [if_pos hph, hph]
    rfl
  · rw [if_neg hph]
    rfl

theorem c3_witness :
    ((streamChunks FOps.zero ((StreamingSynthesizer.with_config
        (StreamingConfig.default.with_prosody false)).synthesize_stream
        FOps.zero "a")).map AudioChunk.samples).flatten
      = ((Synthesizer.with_config
          (StreamingConfig.default.with_prosody false).voice).synthesize
          FOps.zero "a").samples :=
  c3_streaming_refines_batch FOps.zero
    (StreamingConfig.default.with_prosody false) "a" rfl (by decide)

/-- Claim C9, amended: when the chunk size does not divide the total
number of pending samples (which also forces that total to be nonzero),
the stream yields at least one chunk and the last one has
`is_final = true`.  As stated the claim is false: an input with no
phonemes yields no chunk (see the counterexample), and when the chunk
size divides the total exactly the drain ends on a non-final chunk. -/
theorem c9_last_final (ops : FOps) (sc : StreamingConfig) (text : String)
    (hcs : 0 < sc.chunk_size)
    (hnd : ¬ (sc.chunk_size ∣ (remFloats ops
        ((StreamingSynthesizer.with_config sc).synthesize_stream ops
          text)).length)) :
    ∃ c, (streamChunks ops ((StreamingSynthesizer.with_config
          sc).synthesize_stream ops text)).getLast? = some c
        ∧ c.is_final = true := by
  rw [streamChunks]
  apply streamLastFinal
  · omega
  · exact hcs
  · have hb : ((StreamingSynthesizer.with_config sc).synthesize_stream ops
        text).buffer.length = 0 := rfl
    rw [hb, Nat.zero_add]
    intro hd
    apply hnd
    have hc : ((StreamingSynthesizer.with_config sc).synthesize_stream ops
        text).chunk_size = sc.chunk_size := rfl
    rw [hc] at hd
    exact hd

/-- Floor of a quotient of naturals. -/
theorem ratToNat_natCast_div (a b : ℕ) :
    ratToNat ((a : ℚ) / (b : ℚ)) = a / b := by
  rw [ratToNat, Int.floor_toNat, Nat.floor_div_nat, Nat.floor_natCast]

/-- A known token at rate one contributes duration times sample rate over
1000, floored. -/
theorem tokenContribution_val (cfg : SynthesisConfig) (inv : PhonemeInventory)
    (tok : String) (d : ℕ) (htok : ¬ tok = "_")
    (hget : (inv.get tok).map Phoneme.duration_ms = some d)
    (hr : cfg.rate = 1) (hsr : cfg.sample_rate = 22050) :
    tokenContribution cfg inv tok = d * 22050 / 1000 := by
  cases hg : inv.get tok with
  | none => rw [hg] at hget; cases hget
  | some p =>
    rw [hg] at hget
    have hdm : p.duration_ms = d := by simpa using hget
    rw [tokenContribution, if_neg htok, hg]
    dsimp only
    rw [scaledDuration, hr, hsr, hdm, div_one, div_one]
    rw [show ratToNat ((d : ℚ)) = d from by
      rw [ratToNat, Int.floor_natCast]; exact Int.toNat_natCast d]
    rw [show (d : ℚ) / 1000 * ((22050 : ℕ) : ℚ)
        = ((d * 22050 : ℕ) : ℚ) / ((1000 : ℕ) : ℚ) from by push_cast; ring]
    exact ratToNat_natCast_div _ _

theorem c9_witness :
    ∃ c, (streamChunks FOps.zero ((StreamingSynthesizer.with_config
        StreamingConfig.default).synthesize_stream FOps.zero
        "hello")).getLast? = some c ∧ c.is_final = true := by
  apply c9_last_final FOps.zero StreamingConfig.default "hello" (by decide)
  have hrate : ((StreamingSynthesizer.with_config
      StreamingConfig.default).synthesize_stream FOps.zero
      "hello").formant_synth.config.rate = 1 := by
    rw [synthesize_stream_eq]
    show StreamingConfig.default.voice.rate_multiplier
        * (streamProsody (StreamingSynthesizer.with_config
            StreamingConfig.default) "hello").rate_multiplier = 1
    rw [show streamProsody (StreamingSynthesizer.with_config
        StreamingConfig.default) "hello"
      = ProsodyConfig.default.with_contour PitchContour.Falling from by decide]
    rw [VoiceConfig.rate_multiplier]
    norm_num [StreamingConfig.default, VoiceConfig.default, VoiceConfig.new,
      ProsodyConfig.with_contour, ProsodyConfig.default]
  have hsr : ((StreamingSynthesizer.with_config
      StreamingConfig.default).synthesize_stream FOps.zero
      "hello").formant_synth.config.sample_rate = 22050 := rfl
  rw [freshRemLength FOps.zero StreamingConfig.default "hello" (by decide)]
  rw [show splitWs (((StreamingSynthesizer.with_config
      StreamingConfig.default).get_g2p).convert "hello")
    = ["h", "E", "l", "o"] from by decide]
  rw [List.map_cons, List.map_cons, List.map_cons, List.map_cons,
    List.map_nil]
  rw [tokenContribution_val _ _ "h" 60 (by decide) (by decide) hrate hsr,
    tokenContribution_val _ _ "E" 100 (by decide) (by decide) hrate hsr,
    tokenContribution_val _ _ "l" 70 (by decide) (by decide) hrate hsr,
    tokenContribution_val _ _ "o" 140 (by decide) (by decide) hrate hsr]
  decide

/-- Claim C2, amended: the sample count of `synthesize` is the sum over
tokens of `tokenContribution`: a pause contributes
floor(0.1 sr / rate) zeros and a known phoneme contributes
floor(floor(duration_ms / rate) / 1000 * sr / rate) samples - the
duration is floored, not rounded, and the rate multiplier is applied
twice (once in `synthesize_phonemes`, once again inside
`synthesize_phoneme`), unlike the round(duration_ms / 1000 * sr / rate)
of the claim. -/
theorem c2_sample_counts (s : Synthesizer) (ops : FOps) (text : String)
    (hg : goodInventory s.get_inventory = true) :
    ((s.synthesize ops text).samples).length
      = ((splitWs ((s.get_g2p).convert text)).map
          (tokenContribution ((s.create_formant_synthesizer ops).config)
            s.get_inventory)).sum := by
  simp only [Synthesizer.synthesize]
  by_cases hph : (s.get_g2p).convert text = ""
  · rw [if_pos hph, hph]
    rfl
  · rw [if_neg hph]
    show (to_pcm16 ((s.create_formant_synthesizer ops).synthesize_phonemes ops
        ((s.get_g2p).convert text) s.get_inventory).1).length = _
    rw [to_pcm16, List.length_map, FormantSynthesizer.synthesize_phonemes,
      synthList_length ops s.get_inventory hg]

theorem c2_witness :
    goodInventory Synthesizer.new.get_inventory = true
  ∧ ((Synthesizer.new.synthesize FOps.zero "hi").samples).length
      = ((splitWs ((Synthesizer.new.get_g2p).convert "hi")).map
          (tokenContribution
            ((Synthesizer.new.create_formant_synthesizer FOps.zero).config)
            Synthesizer.new.get_inventory)).sum :=
  ⟨goodInventory_english, c2_sample_counts Synthesizer.new FOps.zero "hi"
    goodInventory_english⟩

/-- Counterexample to claim C2 as stated: at voice rate 350 wpm (rate
multiplier 2) the phoneme "i" of nominal duration 120 ms produces 661
samples, while the claimed formula round(120 / 1000 * 22050 / 2) gives
1323: the rate is divided out twice and the result floored. -/
theorem c2_counterexample :
    ((((Synthesizer.with_config (VoiceConfig.default.with_rate 350)
          ).create_formant_synthesizer FOps.zero).synthesize_phonemes FOps.zero
          "i" PhonemeInventory.english).1).length = 661
  ∧ (PhonemeInventory.english.get "i").map Phoneme.duration_ms = some 120
  ∧ ((Synthesizer.with_config (VoiceConfig.default.with_rate 350)
        ).create_formant_synthesizer FOps.zero).config.rate = 2
  ∧ (round ((120 : ℚ) / 1000 * (22050 : ℚ) / 2) : ℤ) = 1323 := by
  have hrate : ((Synthesizer.with_config (VoiceConfig.default.with_rate 350)
      ).create_formant_synthesizer FOps.zero).config.rate = 2 := by
    show VoiceConfig.rate_multiplier (VoiceConfig.default.with_rate 350) = 2
    rw [VoiceConfig.rate_multiplier]
    norm_num [VoiceConfig.with_rate, VoiceConfig.default, VoiceConfig.new]
  have hsr : ((Synthesizer.with_config (VoiceConfig.default.with_rate 350)
      ).create_formant_synthesizer FOps.zero).config.sample_rate = 22050 := rfl
  refine ⟨?_, by decide, hrate, by norm_num [round_eq]⟩
  rw [FormantSynthesizer.synthesize_phonemes,
    show splitWs "i" = ["i"] from by decide,
    synthList_length FOps.zero PhonemeInventory.english goodInventory_english]
  rw [List.map_cons, List.map_nil, List.sum_cons, List.sum_nil]
  rw [tokenContribution, if_neg (by decide),
    show PhonemeInventory.english.get "i" = some ⟨"i", "iː",
      PhonemeCategory.Vowel, 120, some (FormantValues.new 270 2290 3010),
      true⟩ from by decide]
  dsimp only
  rw [scaledDuration, hrate, hsr]
  rw [show ratToNat (((120 : ℕ) : ℚ) / 2) = 60 from
    ratToNat_eq _ 60 (by norm_num) (by norm_num)]
  rw [show ratToNat (((60 : ℕ) : ℚ) / 1000 * ((22050 : ℕ) : ℚ) / 2) = 661 from
    ratToNat_eq _ 661 (by norm_num) (by norm_num)]
  rfl

/-- Claim C4, amended: a Break element with resolved duration D emits
exactly one segment whose text is the sentinel `__break_<D>__` but whose
prosody is the default at volume zero (not the default), and
`synthesize_segments` turns that sentinel (for D below 2^32) into
floor(D / 1000 * 22050) zero samples - floored, not rounded. -/
theorem c4_break_segment (s : Synthesizer) (ops : FOps) (bs : BreakSpec)
    (pp pros : ProsodyConfig) (D : ℕ) (hD : D < 4294967296) :
    collectSegment (SsmlElement.Break bs) pp
        = [⟨breakSentinel (if 0 < bs.time_ms then bs.time_ms
              else bs.strength.to_ms),
            ProsodyConfig.default.with_volume 0⟩]
  ∧ synthesizeSegmentsLoop s ops [⟨breakSentinel D, pros⟩]
        = List.replicate (ratToNat ((D : ℚ) / 1000 * (SAMPLE_RATE : ℚ)))
            (0 : ℤ) := by
  refine ⟨rfl, ?_⟩
  rw [breakSegment_samples s ops D hD pros []]
  rw [show synthesizeSegmentsLoop s ops [] = [] from rfl, List.append_nil]

theorem c4_witness :
    collectSegment (SsmlElement.Break ⟨500, BreakStrength.Medium⟩)
        ProsodyConfig.default
      = [⟨breakSentinel (if 0 < (500 : ℕ) then 500
            else BreakStrength.Medium.to_ms),
          ProsodyConfig.default.with_volume 0⟩]
  ∧ synthesizeSegmentsLoop Synthesizer.new FOps.zero
        [⟨breakSentinel 500, ProsodyConfig.default⟩]
      = List.replicate (ratToNat ((500 : ℚ) / 1000 * (SAMPLE_RATE : ℚ)))
          (0 : ℤ) :=
  c4_break_segment Synthesizer.new FOps.zero ⟨500, BreakStrength.Medium⟩
    ProsodyConfig.default ProsodyConfig.default 500 (by norm_num)

/-- Counterexample to claim C4 as stated: the break segment prosody is
the default with volume zero, which differs from the default; and for
D = 34 the engine emits floor(34 / 1000 * 22050) = 749 zero samples
where the claimed rounding gives 750. -/
theorem c4_counterexample :
    collectSegment (SsmlElement.Break ⟨34, BreakStrength.Medium⟩)
        ProsodyConfig.default
      = [⟨breakSentinel 34, ProsodyConfig.default.with_volume 0⟩]
  ∧ ¬ (ProsodyConfig.default.with_volume 0 = ProsodyConfig.default)
  ∧ Synthesizer.new.synthesize_ssml FOps.zero
        "<speak><break time=\"34ms\"/></speak>"
      = .ok ⟨List.replicate 749 0, SAMPLE_RATE, 1⟩
  ∧ (round ((34 : ℚ) / 1000 * ((SAMPLE_RATE : ℕ) : ℚ)) : ℤ) = 750 := by
  refine ⟨by decide, by decide, ?_, by norm_num [round_eq, SAMPLE_RATE]⟩
  have hparse : SsmlParser.parse FOps.zero
      "<speak><break time=\"34ms\"/></speak>"
      = .ok ⟨[.Break ⟨34, .Medium⟩]⟩ := rfl
  rw [Synthesizer.synthesize_ssml, hparse]
  dsimp only
  rw [show SsmlDocument.to_synthesis_segments
      ⟨[SsmlElement.Break ⟨34, BreakStrength.Medium⟩]⟩
    = [⟨breakSentinel 34, ProsodyConfig.default.with_volume 0⟩] from rfl]
  rw [Synthesizer.synthesize_segments]
  rw [breakSegment_samples Synthesizer.new FOps.zero 34 (by norm_num)
    (ProsodyConfig.default.with_volume 0) []]
  rw [show synthesizeSegmentsLoop Synthesizer.new FOps.zero [] = [] from rfl,
    List.append_nil]
  rw [show ratToNat (((34 : ℕ) : ℚ) / 1000 * ((SAMPLE_RATE : ℕ) : ℚ)) = 749
      from by
    rw [show ((SAMPLE_RATE : ℕ) : ℚ) = (22050 : ℚ) from by
      norm_num [SAMPLE_RATE]]
    exact ratToNat_eq _ 749 (by norm_num) (by norm_num)]

/-- Claim C8, amended: for text whose trimmed form ends with a question
mark or starts with an inverted one, `detect` returns WhQuestion exactly
when one of the interrogative words is a prefix of the lowercased text
after stripping leading non-alphabetic characters (a prefix test, not an
equality with the first alphabetic word); Question gets the Rising
contour with pitch multiplier 1.1 and WhQuestion the FallingRising
contour. -/
theorem c8_question_detection (text : String)
    (h : (rustTrim text).data.getLast? = some '?'
        ∨ (rustTrim text).data.head? = some '¿') :
    (SentenceType.detect text = SentenceType.WhQuestion
        ↔ whWords.any (fun w => w.data.isPrefixOf (questionContent text))
            = true)
  ∧ (ProsodyConfig.from_sentence_type SentenceType.Question).contour
      = PitchContour.Rising
  ∧ (ProsodyConfig.from_sentence_type SentenceType.Question).pitch_multiplier
      = 11 / 10
  ∧ (ProsodyConfig.from_sentence_type SentenceType.WhQuestion).contour
      = PitchContour.FallingRising := by
  refine ⟨?_, rfl, ?_, rfl⟩
  · simp only [SentenceType.detect, questionContent]
    have hc : (decide ((rustTrim text).data.getLast? = some '?')
        || decide ((rustTrim text).data.head? = some '¿')) = true := by
      rcases h with h | h <;> simp [h]
    rw [if_pos hc]
    by_cases hw : whWords.any (fun w => w.data.isPrefixOf
        (((rustTrim text).data.map rustToLower).dropWhile
          (fun c => ¬ rustIsAlphabetic c))) = true
    · rw [if_pos hw]
      exact iff_of_true rfl hw
    · rw [if_neg hw]
      exact iff_of_false (by simp) hw
  · show min (max ((11 : ℚ) / 10) (1 / 2)) 2 = 11 / 10
    rw [max_eq_left (by norm_num), min_eq_left (by norm_num)]

theorem c8_witness :
    (SentenceType.detect "what time?" = SentenceType.WhQuestion
        ↔ whWords.any (fun w => w.data.isPrefixOf
            (questionContent "what time?")) = true)
  ∧ (ProsodyConfig.from_sentence_type SentenceType.Question).contour
      = PitchContour.Rising
  ∧ (ProsodyConfig.from_sentence_type SentenceType.Question).pitch_multiplier
      = 11 / 10
  ∧ (ProsodyConfig.from_sentence_type SentenceType.WhQuestion).contour
      = PitchContour.FallingRising :=
  c8_question_detection "what time?" (Or.inl (by decide))

end Parlador
